import Mathlib

/-!
Shallow embedding of the extent-based space-management engine in
`fs/xfs/xfs_bmap_util.c` (Linux 6.1.y), together with proofs checking the
natural-language specification's claims against it.

Conventions:
* C integers are modelled as `Int` (signed) or `Nat` (bit masks / counts);
  all byte/block quantities stay far below 2^63 in every statement proved
  here, so no wrap-around modelling is needed except where noted.
* Error returns mirror the kernel: `0` is success, `-E...` an errno.
* External collaborators (transaction subsystem, page cache, quota, the
  libxfs extent-index primitives) are modelled either from their contract
  in the specification (marked `Modelled from the spec:`) or as oracle
  inputs carrying the collaborator's outcome.
-/

namespace XfsBmapUtil

/-! ## Error numbers (include/uapi/asm-generic/errno-base.h) -/

def EIO : Int := 5
def EAGAIN : Int := 11
def EFAULT : Int := 14
def EBUSY : Int := 16
def EINVAL : Int := 22
def EFBIG : Int := 27
def ENOSR : Int := 63

/-! ## getbmap flag bits (include/uapi/linux/fs/xfs_fs.h, values fixed ABI) -/

def BMV_IF_ATTRFORK : Nat := 0x1
def BMV_IF_NO_DMAPI_READ : Nat := 0x2
def BMV_IF_PREALLOC : Nat := 0x4
def BMV_IF_DELALLOC : Nat := 0x8
def BMV_IF_NO_HOLES : Nat := 0x10
def BMV_IF_COWFORK : Nat := 0x20
def BMV_IF_VALID : Nat :=
  BMV_IF_ATTRFORK ||| BMV_IF_NO_DMAPI_READ ||| BMV_IF_PREALLOC |||
  BMV_IF_DELALLOC ||| BMV_IF_NO_HOLES ||| BMV_IF_COWFORK

def BMV_OF_PREALLOC : Nat := 0x1
def BMV_OF_DELALLOC : Nat := 0x2
def BMV_OF_LAST : Nat := 0x4
def BMV_OF_SHARED : Nat := 0x8

/-- S_IFREG bits of `i_mode & S_IFMT`. -/
def S_IFREG : Nat := 0x8000

def LLONG_MAX : Int := 2 ^ 63 - 1

/-- On-disk cap for a single mapping record: `XFS_MAX_BMBT_EXTLEN` (21 bits). -/
def XFS_MAX_BMBT_EXTLEN : Int := 2 ^ 21 - 1

/-! ## Data model -/

/-- Inode fork format (`XFS_DINODE_FMT_{LOCAL,EXTENTS,BTREE}`). -/
inductive IForkFmt where
  | localfmt
  | extents
  | btree
deriving Repr, DecidableEq

/-- The physical-start field of an extent record.  `hole` plays the role of
`HOLESTARTBLOCK` (only ever produced by `xfs_bmapi_read` for unmapped
ranges), `delayed` covers both `nullstartblock` encodings and
`DELAYSTARTBLOCK`, and `real b` is an allocated filesystem block. -/
inductive StartBlock where
  | hole
  | delayed
  | real (b : Int)
deriving Repr, DecidableEq

/-- `struct xfs_bmbt_irec`; `br_unwritten` models `br_state = XFS_EXT_UNWRITTEN`. -/
structure xfs_bmbt_irec where
  br_startoff : Int := 0
  br_startblock : StartBlock := .hole
  br_blockcount : Int := 0
  br_unwritten : Bool := false
deriving Repr, DecidableEq

/-- One inode fork: format, extent count, sorted extent records, and the
space `XFS_BMAP_BMDR_SPACE` of the embedded btree root (btree format only). -/
structure xfs_ifork where
  if_format : IForkFmt := .extents
  if_nextents : Nat := 0
  if_broot_space : Nat := 0
  exts : List xfs_bmbt_irec := []
deriving Repr, DecidableEq

/-- The mount/filesystem-wide state read by the functions under study. -/
structure xfs_mount where
  blocklog : Nat := 12            -- fs block = 2^blocklog bytes, blocklog ≥ 9
  s_maxbytes : Int := 2 ^ 62
  sb_rextsize : Int := 1
  agblklog : Nat := 16            -- for XFS_FSB_TO_DADDR decomposition
  agblocks : Int := 2 ^ 16
  quota_on : Bool := false        -- XFS_IS_QUOTA_ON
  has_rmapbt : Bool := false
  has_v3inodes : Bool := false
  has_reflink : Bool := false
  has_wsync : Bool := false
  debug : Bool := false           -- CONFIG DEBUG build (gates CoW-fork queries)
  diostrat_base : Int := 4        -- abstracts XFS_DIOSTRAT_SPACE_RES(mp, 0)
deriving Repr, DecidableEq

/-- The in-core inode fields read or written by `xfs_bmap_util.c`. -/
structure xfs_inode where
  mode_fmt : Nat := S_IFREG       -- i_mode & S_IFMT
  is_realtime : Bool := false     -- XFS_IS_REALTIME_INODE
  isize : Int := 0                -- XFS_ISIZE (VFS i_size)
  i_disk_size : Int := 0
  nrpages : Int := 0              -- VFS mapping page count
  i_delayed_blks : Int := 0
  i_nblocks : Int := 0
  need_iread : Bool := false      -- xfs_need_iread_extents(&ip->i_df)
  diflags_prealloc : Bool := false  -- XFS_DIFLAG_PREALLOC
  diflags_append : Bool := false    -- XFS_DIFLAG_APPEND
  diflags2_reflink : Bool := false  -- XFS_DIFLAG2_REFLINK
  extsz_hint : Int := 0           -- xfs_get_extsz_hint
  cowextsz_hint : Int := 0        -- xfs_get_cowextsz_hint
  i_uid : Nat := 0
  i_gid : Nat := 0
  i_projid : Nat := 0
  has_attr_fork : Bool := false   -- xfs_inode_has_attr_fork
  fork_boff : Nat := 0            -- xfs_inode_fork_boff
  df_maxext : Nat := 0            -- XFS_IFORK_MAXEXT(ip, XFS_DATA_FORK)
  i_df : xfs_ifork := {}
  i_af : xfs_ifork := {}
  i_cowfp : Option xfs_ifork := none
  ctime_sec : Int := 0
  ctime_nsec : Int := 0
  mtime_sec : Int := 0
  mtime_nsec : Int := 0
deriving Repr, DecidableEq

/-! ## Unit conversions (fs/xfs/xfs_linux.h macros).  A "BB" is a 512-byte
basic block; `blkbb = 2^(blocklog-9)` BBs per filesystem block. -/

def blkbb (mp : xfs_mount) : Int := 2 ^ (mp.blocklog - 9)

def blocksize (mp : xfs_mount) : Int := 2 ^ mp.blocklog

def XFS_FSB_TO_BB (mp : xfs_mount) (fsb : Int) : Int := fsb * blkbb mp

def XFS_BB_TO_FSBT (mp : xfs_mount) (bb : Int) : Int := bb / blkbb mp

def XFS_BB_TO_FSB (mp : xfs_mount) (bb : Int) : Int :=
  (bb + (blkbb mp - 1)) / blkbb mp

def XFS_B_TO_FSB (mp : xfs_mount) (b : Int) : Int :=
  (b + (blocksize mp - 1)) / blocksize mp

def XFS_B_TO_FSBT (mp : xfs_mount) (b : Int) : Int := b / blocksize mp

def round_up_64 (x y : Int) : Int := ((x + y - 1) / y) * y

def round_down_64 (x y : Int) : Int := (x / y) * y

/-- `XFS_FSB_TO_DADDR`: split the sparse fsb number into (agno, agbno) by
`agblklog`, linearize by `agblocks`, convert to basic blocks. -/
def XFS_FSB_TO_DADDR (mp : xfs_mount) (fsb : Int) : Int :=
  XFS_FSB_TO_BB mp ((fsb / 2 ^ mp.agblklog) * mp.agblocks + fsb % 2 ^ mp.agblklog)

/-- `xfs_fsb_to_db` (xfs_bmap_util.c:39). -/
def xfs_fsb_to_db (mp : xfs_mount) (ip : xfs_inode) (fsb : Int) : Int :=
  if ip.is_realtime then XFS_FSB_TO_BB mp fsb else XFS_FSB_TO_DADDR mp fsb

/-! ## Extent-index collaborator (§4.1 of the spec; libxfs, outside this file) -/

/-- End offset of an extent record. -/
def extEnd (r : xfs_bmbt_irec) : Int := r.br_startoff + r.br_blockcount

/-- Modelled from the spec: the extent-index `lookup(offset)` contract —
return the extent containing `bno` or the first one after it, together with
the records past the cursor (`xfs_iext_lookup_extent`); `none` when no
record lies at or after `bno`.  Fork records are sorted by logical start. -/
def xfs_iext_lookup_extent :
    List xfs_bmbt_irec → Int → Option (xfs_bmbt_irec × List xfs_bmbt_irec)
  | [], _ => none
  | r :: rs, bno =>
      if bno < extEnd r then some (r, rs) else xfs_iext_lookup_extent rs bno

/-- `xfs_trim_extent` (libxfs/xfs_bmap.c): clamp a record to the window
`[bno, bno+len)`; a record wholly outside comes back with zero length. -/
def xfs_trim_extent (irec : xfs_bmbt_irec) (bno len : Int) : xfs_bmbt_irec :=
  let e := bno + len
  if extEnd irec ≤ bno then { irec with br_blockcount := 0 }
  else if e ≤ irec.br_startoff then { irec with br_blockcount := 0 }
  else
    let irec :=
      if irec.br_startoff < bno then
        { irec with
          br_startoff := bno,
          br_blockcount := irec.br_blockcount - (bno - irec.br_startoff),
          br_startblock :=
            match irec.br_startblock with
            | .real b => .real (b + (bno - irec.br_startoff))
            | sb => sb }
      else irec
    if e < extEnd irec then { irec with br_blockcount := e - irec.br_startoff }
    else irec

/-- Modelled from the spec: `xfs_bmapi_read` restricted to one mapping —
report the mapping at `off` (trimmed to start there and capped at `count`
blocks), or a synthetic hole record up to the next extent / the end of the
requested window. -/
def xfs_bmapi_read_one (exts : List xfs_bmbt_irec) (off count : Int) :
    xfs_bmbt_irec :=
  match xfs_iext_lookup_extent exts off with
  | none =>
      { br_startoff := off, br_startblock := .hole, br_blockcount := count }
  | some (r, _) =>
      if off < r.br_startoff then
        { br_startoff := off, br_startblock := .hole,
          br_blockcount := min count (r.br_startoff - off) }
      else
        let skip := off - r.br_startoff
        { br_startoff := off,
          br_startblock :=
            match r.br_startblock with
            | .real b => .real (b + skip)
            | sb => sb,
          br_blockcount := min count (r.br_blockcount - skip),
          br_unwritten := r.br_unwritten }

/-- The parts of record `r` lying outside `[s, e)` (0, 1 or 2 records);
used to model punching a sub-range out of a record. -/
def subtractRange (r : xfs_bmbt_irec) (s e : Int) : List xfs_bmbt_irec :=
  if extEnd r ≤ s ∨ e ≤ r.br_startoff then [r]
  else
    (if r.br_startoff < s then
      [{ r with br_blockcount := s - r.br_startoff }]
     else []) ++
    (if e < extEnd r then
      [{ r with
          br_startoff := e,
          br_blockcount := extEnd r - e,
          br_startblock :=
            match r.br_startblock with
            | .real b => .real (b + (e - r.br_startoff))
            | sb => sb }]
     else [])

/-! ## Extent query & reporting: `xfs_getbmap` and helpers -/

/-- `struct kgetbmap` output record. -/
structure kgetbmap where
  bmv_offset : Int := 0
  bmv_block : Int := 0
  bmv_length : Int := 0
  bmv_oflags : Nat := 0
deriving Repr, DecidableEq

/-- `struct getbmapx` (caller-supplied header). -/
structure getbmapx where
  bmv_offset : Int := 0
  bmv_length : Int := 0
  bmv_count : Int := 0
  bmv_entries : Int := 0
  bmv_iflags : Nat := 0
deriving Repr, DecidableEq

/-- Which fork a getbmap query targets. -/
inductive WhichFork where
  | data
  | attr
  | cow
deriving Repr, DecidableEq

/-- Outcomes of the external collaborators `xfs_getbmap` consults:
page-cache flush, fork load, and `xfs_reflink_trim_around_shared` (given a
record, the trim's error, the possibly shortened record, and sharedness). -/
structure GetbmapOracle where
  flush : Int := 0
  iread : Int := 0
  trim : xfs_bmbt_irec → Int × xfs_bmbt_irec × Bool := fun r => (0, r, false)

/-- `xfs_getbmap_report_one` (xfs_bmap_util.c:298): emit one mapped-extent
record.  Returns (error, updated header, output records, updated record). -/
def xfs_getbmap_report_one (mp : xfs_mount) (ip : xfs_inode)
    (o : GetbmapOracle) (bmv : getbmapx) (out : List kgetbmap)
    (bmv_end : Int) (got : xfs_bmbt_irec) :
    Int × getbmapx × List kgetbmap × xfs_bmbt_irec :=
  let t := o.trim got
  let got := t.2.1
  let shared := t.2.2
  if t.1 ≠ 0 then (t.1, bmv, out, got)
  else if got.br_startblock = .delayed then
    -- delalloc extents are skipped unless the caller asked for them
    if bmv.bmv_iflags &&& BMV_IF_DELALLOC = 0 then (0, bmv, out, got)
    else
      let p : kgetbmap :=
        { bmv_oflags :=
            BMV_OF_DELALLOC |||
            (if got.br_unwritten ∧ bmv.bmv_iflags &&& BMV_IF_PREALLOC ≠ 0
             then BMV_OF_PREALLOC else 0) |||
            (if shared then BMV_OF_SHARED else 0),
          bmv_block := -2,
          bmv_offset := XFS_FSB_TO_BB mp got.br_startoff,
          bmv_length := XFS_FSB_TO_BB mp got.br_blockcount }
      let bmv :=
        { bmv with
          bmv_offset := p.bmv_offset + p.bmv_length,
          bmv_length := max 0 (bmv_end - (p.bmv_offset + p.bmv_length)),
          bmv_entries := bmv.bmv_entries + 1 }
      (0, bmv, out ++ [p], got)
  else
    let blk :=
      match got.br_startblock with
      | .real b => xfs_fsb_to_db mp ip b
      | .hole => xfs_fsb_to_db mp ip 0      -- never reached: fork records are not holes
      | .delayed => -2
    let p : kgetbmap :=
      { bmv_oflags :=
          (if got.br_unwritten ∧ bmv.bmv_iflags &&& BMV_IF_PREALLOC ≠ 0
           then BMV_OF_PREALLOC else 0) |||
          (if shared then BMV_OF_SHARED else 0),
        bmv_block := blk,
        bmv_offset := XFS_FSB_TO_BB mp got.br_startoff,
        bmv_length := XFS_FSB_TO_BB mp got.br_blockcount }
    let bmv :=
      { bmv with
        bmv_offset := p.bmv_offset + p.bmv_length,
        bmv_length := max 0 (bmv_end - (p.bmv_offset + p.bmv_length)),
        bmv_entries := bmv.bmv_entries + 1 }
    (0, bmv, out ++ [p], got)

/-- `xfs_getbmap_report_hole` (xfs_bmap_util.c:347). -/
def xfs_getbmap_report_hole (mp : xfs_mount) (bmv : getbmapx)
    (out : List kgetbmap) (bmv_end bno e : Int) : getbmapx × List kgetbmap :=
  if bmv.bmv_iflags &&& BMV_IF_NO_HOLES ≠ 0 then (bmv, out)
  else
    let p : kgetbmap :=
      { bmv_block := -1,
        bmv_offset := XFS_FSB_TO_BB mp bno,
        bmv_length := XFS_FSB_TO_BB mp (e - bno) }
    ({ bmv with
        bmv_offset := p.bmv_offset + p.bmv_length,
        bmv_length := max 0 (bmv_end - (p.bmv_offset + p.bmv_length)),
        bmv_entries := bmv.bmv_entries + 1 },
     out ++ [p])

/-- `xfs_getbmap_full` (xfs_bmap_util.c:370). -/
def xfs_getbmap_full (bmv : getbmapx) : Bool :=
  bmv.bmv_length = 0 ∨ bmv.bmv_entries ≥ bmv.bmv_count - 1

/-- `xfs_getbmap_next_rec` (xfs_bmap_util.c:377): advance `rec` to the
remainder of the original record up to `total_end`; `none` when consumed. -/
def xfs_getbmap_next_rec (rec : xfs_bmbt_irec) (total_end : Int) :
    Option xfs_bmbt_irec :=
  let e := extEnd rec
  if e = total_end then none
  else
    some
      { rec with
        br_startoff := rec.br_startoff + rec.br_blockcount,
        br_startblock :=
          match rec.br_startblock with
          | .real b => .real (b + rec.br_blockcount)
          | sb => sb,
        br_blockcount := total_end - e }

/-- Set `BMV_OF_LAST` on the final record, as `out[bmv_entries-1] |= ...`. -/
def markLast : List kgetbmap → List kgetbmap
  | [] => []
  | [p] => [{ p with bmv_oflags := p.bmv_oflags ||| BMV_OF_LAST }]
  | p :: ps => p :: markLast ps

/-- The shared/unshared splitting loop (do/while at xfs_bmap_util.c:551):
the returned Bool is `true` when the loop left via `goto out_unlock_ilock`
(an error or a full output), `false` when the record was consumed. -/
def getbmapInner (mp : xfs_mount) (ip : xfs_inode) (o : GetbmapOracle)
    (bmv_end : Int) :
    Nat → getbmapx → List kgetbmap → xfs_bmbt_irec → Int →
    Int × getbmapx × List kgetbmap × Bool
  | 0, bmv, out, _, _ => (0, bmv, out, true)
  | fuel + 1, bmv, out, rec, bno =>
      let r := xfs_getbmap_report_one mp ip o bmv out bmv_end rec
      if r.1 ≠ 0 ∨ xfs_getbmap_full r.2.1 then (r.1, r.2.1, r.2.2.1, true)
      else
        match xfs_getbmap_next_rec r.2.2.2 bno with
        | none => (0, r.2.1, r.2.2.1, false)
        | some rec' => getbmapInner mp ip o bmv_end fuel r.2.1 r.2.2.1 rec' bno

/-- The scan-exhausted exit (xfs_bmap_util.c:558-570): flag the last
record, then synthesize the trailing hole up to end of file. -/
def xfs_getbmap_scan_finish (mp : xfs_mount) (ip : xfs_inode)
    (wf : WhichFork) (bmv : getbmapx) (out : List kgetbmap)
    (bmv_end bno : Int) : Int × getbmapx × List kgetbmap :=
  let e := XFS_B_TO_FSB mp ip.isize
  let out := if bmv.bmv_entries > 0 then markLast out else out
  if wf ≠ .attr ∧ bno < e ∧ ¬xfs_getbmap_full bmv then
    let h := xfs_getbmap_report_hole mp bmv out bmv_end bno e
    (0, h.1, h.2)
  else (0, bmv, out)

/-- The main emission loop of `xfs_getbmap` (xfs_bmap_util.c:530-575),
recursing structurally on the records past the cursor. -/
def getbmapOuter (mp : xfs_mount) (ip : xfs_inode) (o : GetbmapOracle)
    (wf : WhichFork) (first_bno len bmv_end : Int) (fuel : Nat) :
    getbmapx → List kgetbmap → Int → xfs_bmbt_irec → List xfs_bmbt_irec →
    Int × getbmapx × List kgetbmap
  | bmv, out, bno, got, rest =>
    if xfs_getbmap_full bmv then (0, bmv, out)
    else
      let got := xfs_trim_extent got first_bno len
      let hb :=
        if bno < got.br_startoff then
          let h := xfs_getbmap_report_hole mp bmv out bmv_end bno got.br_startoff
          (h.1, h.2, xfs_getbmap_full h.1)
        else (bmv, out, false)
      if hb.2.2 then (0, hb.1, hb.2.1)
      else
        let bno := extEnd got
        let ir := getbmapInner mp ip o bmv_end fuel hb.1 hb.2.1 got bno
        if ir.2.2.2 then (ir.1, ir.2.1, ir.2.2.1)
        else
          match rest with
          | [] => xfs_getbmap_scan_finish mp ip wf ir.2.1 ir.2.2.1 bmv_end bno
          | g :: rs =>
              if bno ≥ first_bno + len then (0, ir.2.1, ir.2.2.1)
              else getbmapOuter mp ip o wf first_bno len bmv_end fuel
                ir.2.1 ir.2.2.1 bno g rs

/-- The fork load, extent lookup and emission loop of `xfs_getbmap`
(xfs_bmap_util.c:510-575), after the length has been materialized. -/
def getbmapLookupScan (mp : xfs_mount) (ip : xfs_inode) (o : GetbmapOracle)
    (fuel : Nat) (wf : WhichFork) (ifp : xfs_ifork) (bmv : getbmapx) :
    Int × getbmapx × List kgetbmap :=
  let bmv_end := bmv.bmv_offset + bmv.bmv_length
  let bno := XFS_BB_TO_FSBT mp bmv.bmv_offset
  let len := XFS_BB_TO_FSB mp bmv.bmv_length
  if o.iread ≠ 0 then (o.iread, bmv, [])
  else
    match xfs_iext_lookup_extent ifp.exts bno with
    | none =>
        -- whole-file hole when the delalloc flag is set
        if bmv.bmv_iflags &&& BMV_IF_DELALLOC ≠ 0 then
          let h := xfs_getbmap_report_hole mp bmv [] bmv_end bno
              (XFS_B_TO_FSB mp ip.isize)
          (0, h.1, h.2)
        else (0, bmv, [])
    | some (got, rest) =>
        getbmapOuter mp ip o wf bno len bmv_end fuel bmv [] bno got rest

/-- The part of `xfs_getbmap` shared by all three forks
(xfs_bmap_util.c:493-575): the fork-format check, length
materialization, fork load, extent lookup, and emission loop. -/
def xfs_getbmap_scan (mp : xfs_mount) (ip : xfs_inode) (o : GetbmapOracle)
    (fuel : Nat) (wf : WhichFork) (max_len : Int) (ifp : xfs_ifork)
    (bmv : getbmapx) : Int × getbmapx × List kgetbmap :=
  match ifp.if_format with
  | .localfmt => (0, bmv, [])   -- local format inode forks report no extents
  | _ =>
      let bmv :=
        if bmv.bmv_length = -1 then
          let max_len := XFS_FSB_TO_BB mp (XFS_B_TO_FSB mp max_len)
          { bmv with bmv_length := max 0 (max_len - bmv.bmv_offset) }
        else bmv
      getbmapLookupScan mp ip o fuel wf ifp bmv

/-- `xfs_getbmap` (xfs_bmap_util.c:402).  Returns the error code, the
updated header, and the records written to the output buffer.  `fuel`
bounds the shared-splitting inner loop (driven by the trim collaborator);
every claim below is insensitive to fuel exhaustion. -/
def xfs_getbmap (mp : xfs_mount) (ip : xfs_inode) (o : GetbmapOracle)
    (fuel : Nat) (bmv0 : getbmapx) : Int × getbmapx × List kgetbmap :=
  let iflags := bmv0.bmv_iflags
  -- bmv_iflags & ~BMV_IF_VALID
  if iflags &&& BMV_IF_VALID ≠ iflags then (-EINVAL, bmv0, [])
  else if ¬mp.debug ∧ iflags &&& BMV_IF_COWFORK ≠ 0 then (-EINVAL, bmv0, [])
  else if iflags &&& BMV_IF_ATTRFORK ≠ 0 ∧ iflags &&& BMV_IF_COWFORK ≠ 0 then
    (-EINVAL, bmv0, [])
  else if bmv0.bmv_length < -1 then (-EINVAL, bmv0, [])
  else
    let bmv := { bmv0 with bmv_entries := 0 }
    if bmv.bmv_length = 0 then (0, bmv, [])
    else
      let wf : WhichFork :=
        if iflags &&& BMV_IF_ATTRFORK ≠ 0 then .attr
        else if iflags &&& BMV_IF_COWFORK ≠ 0 then .cow
        else .data
      -- per-fork setup; early successful returns mirror goto out_unlock_ilock
      let setup : Option (Int × xfs_ifork) :=
        match wf with
        | .attr =>
            if ¬ip.has_attr_fork then none
            else some (2 ^ 32, ip.i_af)
        | .cow =>
            match ip.i_cowfp with
            | none => none
            | some cfp =>
                some ((if ip.cowextsz_hint ≠ 0 then mp.s_maxbytes
                       else ip.isize), cfp)
        | .data =>
            some ((if ip.extsz_hint ≠ 0 ∨ ip.diflags_prealloc ∨
                      ip.diflags_append
                   then mp.s_maxbytes else ip.isize), ip.i_df)
      -- the data-fork pre-flush and its possible failure
      let flushErr : Int :=
        if wf = .data ∧ iflags &&& BMV_IF_DELALLOC = 0 ∧
            (ip.i_delayed_blks ≠ 0 ∨ ip.isize > ip.i_disk_size)
        then o.flush else 0
      if flushErr ≠ 0 then (flushErr, bmv, [])
      else
        match setup with
        | none => (0, bmv, [])
        | some (max_len, ifp) =>
            xfs_getbmap_scan mp ip o fuel wf max_len ifp bmv

/-! ## Post-end-of-file reclamation -/

/-- The number of blocks of `r` inside `[s, e)`. -/
def overlapLen (r : xfs_bmbt_irec) (s e : Int) : Int :=
  max 0 (min (extEnd r) e - max r.br_startoff s)

/-- Total delayed-allocation blocks of `exts` inside `[s, e)`. -/
def delallocBlocksIn (exts : List xfs_bmbt_irec) (s e : Int) : Int :=
  (exts.map fun r =>
    if r.br_startblock = .delayed then overlapLen r s e else 0).sum

/-- `xfs_bmap_punch_delalloc_range` (xfs_bmap_util.c:590): delete every
delayed-allocation record's overlap with `[start_byte, end_byte)` (block
granularity: whole start/end blocks), leaving real records alone.  The
backward cursor walk and `xfs_bmap_del_extent_delay` (external) are
modelled extensionally by their effect on the fork and on
`i_delayed_blks`. -/
def xfs_bmap_punch_delalloc_range (mp : xfs_mount) (ip : xfs_inode)
    (start_byte end_byte : Int) : xfs_inode :=
  let s := XFS_B_TO_FSBT mp start_byte
  let e := XFS_B_TO_FSB mp end_byte
  { ip with
    i_df :=
      { ip.i_df with
        exts := ip.i_df.exts.flatMap fun r =>
          if r.br_startblock = .delayed then subtractRange r s e else [r] },
    i_delayed_blks := ip.i_delayed_blks - delallocBlocksIn ip.i_df.exts s e }

/-- `xfs_can_free_eofblocks` (xfs_bmap_util.c:641). -/
def xfs_can_free_eofblocks (mp : xfs_mount) (ip : xfs_inode) : Bool :=
  if ip.mode_fmt ≠ S_IFREG then false
  else if ip.isize = 0 ∧ ip.nrpages = 0 ∧ ip.i_delayed_blks = 0 then false
  else if ip.need_iread then false
  else if (ip.diflags_prealloc ∨ ip.diflags_append) ∧ ip.i_delayed_blks = 0
  then false
  else
    let end_fsb := XFS_B_TO_FSB mp ip.isize
    let end_fsb :=
      if ip.is_realtime ∧ mp.sb_rextsize > 1 then
        round_up_64 end_fsb mp.sb_rextsize
      else end_fsb
    let last_fsb := XFS_B_TO_FSB mp mp.s_maxbytes
    if last_fsb ≤ end_fsb then false
    else
      let imap := xfs_bmapi_read_one ip.i_df.exts end_fsb (last_fsb - end_fsb)
      imap.br_startblock ≠ .hole ∨ ip.i_delayed_blks ≠ 0

/-- Collaborator outcomes for `xfs_free_eofblocks`. -/
structure EofOracle where
  dqattach : Int := 0
  trans_alloc : Int := 0
  itruncate : Int := 0
  commit : Int := 0

/-- Modelled from the spec: `xfs_itruncate_extents_flags` (fs/xfs/xfs_inode.c,
outside this tree slice) truncates the data fork down to end of file —
every mapping at or past the first block after `isize` is removed, the
on-disk size is left alone. -/
def itruncate_extents_model (mp : xfs_mount) (ip : xfs_inode) : xfs_inode :=
  let e := XFS_B_TO_FSB mp ip.isize
  { ip with
    i_df :=
      { ip.i_df with
        exts := ip.i_df.exts.flatMap fun r => subtractRange r e (LLONG_MAX) },
    i_delayed_blks := ip.i_delayed_blks - delallocBlocksIn ip.i_df.exts e LLONG_MAX }

/-- `xfs_free_eofblocks` (xfs_bmap_util.c:719).  The Bool result records
whether the truncating transaction path ran. -/
def xfs_free_eofblocks (mp : xfs_mount) (ip : xfs_inode) (o : EofOracle) :
    Int × xfs_inode × Bool :=
  if o.dqattach ≠ 0 then (o.dqattach, ip, false)
  else if ip.diflags_prealloc ∨ ip.diflags_append then
    -- for preallocated files only free delayed allocations
    let ip :=
      if ip.i_delayed_blks ≠ 0 then
        xfs_bmap_punch_delalloc_range mp ip
          (round_up_64 ip.isize (blocksize mp)) LLONG_MAX
      else ip
    (0, ip, false)
  else if o.trans_alloc ≠ 0 then (o.trans_alloc, ip, false)
  else if o.itruncate ≠ 0 then (o.itruncate, ip, true)   -- err_cancel
  else (o.commit, itruncate_extents_model mp ip, true)

/-! ## Space reservation & allocation: `xfs_alloc_file_space` -/

/-- `XFS_DIOSTRAT_SPACE_RES(mp, v)` abstracted: a mount-dependent base plus
the requested blocks. -/
def XFS_DIOSTRAT_SPACE_RES (mp : xfs_mount) (v : Int) : Int :=
  mp.diostrat_base + v

/-- The loop state of `xfs_alloc_file_space`: the next block to allocate,
the blocks still to allocate, and the inode's preallocation flag. -/
structure AllocState where
  startoffset_fsb : Int
  allocatesize_fsb : Int
  diflags_prealloc : Bool := false
deriving Repr, DecidableEq

/-- One iteration's collaborator outcomes: transaction allocation (given
the computed dblocks/rblocks), the extent-count overflow check and its
upgrade, the allocator (`xfs_bmapi_write`: an errno or the allocated
extent's block count), and the commit. -/
structure AllocStep where
  trans_alloc : Int → Int → Int := fun _ _ => 0
  iext_may_overflow : Int := 0
  iext_upgrade : Int := 0
  bmapi : Except Int Int := .ok 0
  commit : Int := 0

/-- The allocation loop of `xfs_alloc_file_space` (xfs_bmap_util.c:830-911),
one `AllocStep` per iteration; an exhausted step list simply stops (the
claims below are per-iteration properties). -/
def allocLoop (mp : xfs_mount) (rt : Bool) (extsz : Int) :
    AllocState → List AllocStep → Int × AllocState
  | st, [] => (0, st)
  | st, o :: os =>
      if st.allocatesize_fsb = 0 then (0, st)
      else
        -- reservation window, snapped to the extent-size hint
        let se : Int × Int :=
          if extsz ≠ 0 then
            let s := st.startoffset_fsb / extsz * extsz
            let e := st.startoffset_fsb + st.allocatesize_fsb
            let e := if st.startoffset_fsb % extsz ≠ 0 then
                       e + st.startoffset_fsb % extsz else e
            let e := if e % extsz ≠ 0 then e + (extsz - e % extsz) else e
            (s, e)
          else (0, st.allocatesize_fsb)
        let resblks := min (se.2 - se.1) XFS_MAX_BMBT_EXTLEN
        let dr : Int × Int :=
          if rt then (XFS_DIOSTRAT_SPACE_RES mp 0, resblks)
          else (XFS_DIOSTRAT_SPACE_RES mp resblks, 0)
        if o.trans_alloc dr.1 dr.2 ≠ 0 then (o.trans_alloc dr.1 dr.2, st)
        else
          let ierr :=
            if o.iext_may_overflow = -EFBIG then o.iext_upgrade
            else o.iext_may_overflow
          if ierr ≠ 0 then (ierr, st)     -- goto error: cancel and return
          else
            match o.bmapi with
            | .error e =>
                if e ≠ -ENOSR then (e, st)   -- goto error
                else
                  -- keep looping with the same startoffset_fsb
                  let st := { st with diflags_prealloc := true }
                  if o.commit ≠ 0 then (o.commit, st)
                  else allocLoop mp rt extsz st os
            | .ok cnt =>
                let st :=
                  { startoffset_fsb := st.startoffset_fsb + cnt,
                    allocatesize_fsb := st.allocatesize_fsb - cnt,
                    diflags_prealloc := true }
                if o.commit ≠ 0 then (o.commit, st)
                else allocLoop mp rt extsz st os

/-- `xfs_alloc_file_space` (xfs_bmap_util.c:789). -/
def xfs_alloc_file_space (mp : xfs_mount) (ip : xfs_inode)
    (shutdown : Bool) (dqattach : Int) (offset len : Int)
    (steps : List AllocStep) : Int × AllocState :=
  let st0 : AllocState :=
    { startoffset_fsb := XFS_B_TO_FSBT mp offset,
      allocatesize_fsb :=
        XFS_B_TO_FSB mp (offset + len) - XFS_B_TO_FSBT mp offset,
      diflags_prealloc := ip.diflags_prealloc }
  if shutdown then (- EIO, st0)
  else if dqattach ≠ 0 then (dqattach, st0)
  else if len ≤ 0 then (-EINVAL, st0)
  else allocLoop mp ip.is_realtime ip.extsz_hint st0 steps

/-! ## Range deallocation: `xfs_free_file_space` -/

def PAGE_SIZE : Int := 4096

/-- Observable actions of `xfs_free_file_space`. -/
inductive FEvent where
  | unmap (s l : Int)       -- one xfs_unmap_extent transaction over [s, s+l)
  | zero (off len : Int)    -- xfs_zero_range of the partial edges
  | flushPost (start : Int) -- write_and_wait_range over the EOF page
deriving Repr, DecidableEq

/-- Collaborator outcomes for `xfs_free_file_space`: quota attach, each
unmap transaction's (errno, done) pair, the boundary zeroing, and the
post-EOF page flush. -/
structure FreeOracle where
  dqattach : Int := 0
  unmap_steps : List (Int × Bool) := []
  zero_range : Int := 0
  flushPost : Int := 0

/-- Modelled from the spec: the `xfs_bunmapi` primitive (§4.5) removes the
mappings of `[s, s+l)` from the data fork. -/
def bunmapi_model (ip : xfs_inode) (s l : Int) : xfs_inode :=
  { ip with
    i_df := { ip.i_df with
      exts := ip.i_df.exts.flatMap fun r => subtractRange r s (s + l) } }

/-- The `while (!done)` unmap loop of `xfs_free_file_space`
(xfs_bmap_util.c:1020-1027); one list entry per `xfs_unmap_extent` call. -/
def unmapLoop (ip : xfs_inode) (s e : Int) :
    List (Int × Bool) → Int × xfs_inode × List FEvent
  | [] => (0, ip, [])
  | (err, done) :: rest =>
      if err ≠ 0 then (err, ip, [.unmap s (e - s)])
      else
        let ip := bunmapi_model ip s (e - s)
        if done then (0, ip, [.unmap s (e - s)])
        else
          let (r, ip', evs) := unmapLoop ip s e rest
          (r, ip', .unmap s (e - s) :: evs)

/-- `xfs_free_file_space` (xfs_bmap_util.c:986). -/
def xfs_free_file_space (mp : xfs_mount) (ip : xfs_inode)
    (offset len : Int) (o : FreeOracle) : Int × xfs_inode × List FEvent :=
  if o.dqattach ≠ 0 then (o.dqattach, ip, [])
  else if len ≤ 0 then (0, ip, [])        -- nothing being freed
  else
    let s := XFS_B_TO_FSB mp offset
    let e := XFS_B_TO_FSBT mp (offset + len)
    -- only complete realtime extents can be freed
    let s := if ip.is_realtime ∧ mp.sb_rextsize > 1 then
               round_up_64 s mp.sb_rextsize else s
    let e := if ip.is_realtime ∧ mp.sb_rextsize > 1 then
               round_down_64 e mp.sb_rextsize else e
    let step1 : Int × xfs_inode × List FEvent :=
      if e > s then unmapLoop ip s e o.unmap_steps else (0, ip, [])
    if step1.1 ≠ 0 then step1
    else
      let ip := step1.2.1
      let evs := step1.2.2
      if offset ≥ ip.isize then (0, ip, evs)
      else
        let len := if offset + len > ip.isize then ip.isize - offset else len
        let evs := evs ++ [.zero offset len]
        if o.zero_range ≠ 0 then (o.zero_range, ip, evs)
        else if offset + len ≥ ip.isize ∧ (offset + len) % PAGE_SIZE > 0 then
          (o.flushPost, ip,
           evs ++ [.flushPost (round_down_64 (offset + len) PAGE_SIZE)])
        else (0, ip, evs)

/-! ## Extent shifting: preparation and collapse -/

/-- `xfs_inode_alloc_unitsize` in bytes: the realtime extent size for
realtime files, one block otherwise. -/
def xfs_inode_alloc_unitsize (mp : xfs_mount) (ip : xfs_inode) : Int :=
  (if ip.is_realtime then mp.sb_rextsize else 1) * blocksize mp

/-- `xfs_inode_has_cow_data`. -/
def xfs_inode_has_cow_data (ip : xfs_inode) : Bool :=
  match ip.i_cowfp with
  | some c => ¬c.exts.isEmpty
  | none => false

/-- Modelled from the spec: `xfs_reflink_cancel_cow_range(ip, off, NULLFILEOFF)`
(fs/xfs/xfs_reflink.c, outside this tree slice) discards the copy-on-write
staging extents from byte `off` to end of file (§4.6: "discard any
copy-on-write staging extents in the affected region"). -/
def xfs_reflink_cancel_cow_range_model (mp : xfs_mount) (ip : xfs_inode)
    (off : Int) : xfs_inode :=
  let s := XFS_B_TO_FSBT mp off
  { ip with
    i_cowfp := ip.i_cowfp.map fun c =>
      { c with exts := c.exts.flatMap fun r => subtractRange r s LLONG_MAX } }

/-- Collaborator outcomes for `xfs_prepare_shift`. -/
structure PrepOracle where
  eofO : EofOracle := {}
  flush_unmap : Int := 0
  cancel_cow : Int := 0

/-- `xfs_prepare_shift` (xfs_bmap_util.c:1057). -/
def xfs_prepare_shift (mp : xfs_mount) (ip : xfs_inode) (offset : Int)
    (o : PrepOracle) : Int × xfs_inode :=
  let step1 : Int × xfs_inode × Bool :=
    if xfs_can_free_eofblocks mp ip then xfs_free_eofblocks mp ip o.eofO
    else (0, ip, false)
  if step1.1 ≠ 0 then (step1.1, step1.2.1)
  else
    let ip := step1.2.1
    let rounding := xfs_inode_alloc_unitsize mp ip
    let offset := round_down_64 offset rounding
    let offset := if offset ≠ 0 then offset - rounding else offset
    if o.flush_unmap ≠ 0 then (o.flush_unmap, ip)
    else if xfs_inode_has_cow_data ip then
      if o.cancel_cow ≠ 0 then (o.cancel_cow, ip)
      else (0, xfs_reflink_cancel_cow_range_model mp ip offset)
    else (0, ip)

/-- Observable steps of `xfs_collapse_file_space`. -/
inductive CEvent where
  | freeSpace (offset len : Int)  -- the xfs_free_file_space call
  | prepShift (offset : Int)      -- xfs_prepare_shift
  | transAlloc
  | shiftLeft (shift_fsb : Int)   -- one xfs_bmap_collapse_extents call
  | deferRoll                     -- xfs_defer_finish (rolls the transaction)
  | commitTx
  | cancelTx
deriving Repr, DecidableEq

/-- One shift-loop iteration's collaborator outcomes:
`xfs_bmap_collapse_extents` (an errno, or the done flag) and
`xfs_defer_finish`. -/
structure CStep where
  shift : Except Int Bool := .ok true
  deferRes : Int := 0

/-- Collaborator outcomes for `xfs_collapse_file_space`. -/
structure CollapseOracle where
  freeO : FreeOracle := {}
  prepO : PrepOracle := {}
  trans_alloc : Int := 0
  steps : List CStep := []
  commit : Int := 0

/-- The `while (!done)` shift loop of `xfs_collapse_file_space`
(xfs_bmap_util.c:1156-1168) followed by the commit; one `CStep` per
iteration (an exhausted list just stops). -/
def collapseLoop (shift_fsb commit : Int) : List CStep → Int × List CEvent
  | [] => (0, [])
  | st :: rest =>
      match st.shift with
      | .error e => (e, [.shiftLeft shift_fsb, .cancelTx])
      | .ok true => (commit, [.shiftLeft shift_fsb, .commitTx])
      | .ok false =>
          if st.deferRes ≠ 0 then
            (st.deferRes, [.shiftLeft shift_fsb, .deferRoll, .cancelTx])
          else
            ((collapseLoop shift_fsb commit rest).1,
             .shiftLeft shift_fsb :: .deferRoll ::
               (collapseLoop shift_fsb commit rest).2)

/-- `xfs_collapse_file_space` (xfs_bmap_util.c:1123).  The effect of the
shift primitive on the extent index is the external §4.1 collaborator and
is not modelled; the trace records every call made. -/
def xfs_collapse_file_space (mp : xfs_mount) (ip : xfs_inode)
    (offset len : Int) (o : CollapseOracle) : Int × xfs_inode × List CEvent :=
  let shift_fsb := XFS_B_TO_FSB mp len
  let fr := xfs_free_file_space mp ip offset len o.freeO
  if fr.1 ≠ 0 then (fr.1, fr.2.1, [.freeSpace offset len])
  else
    let pr := xfs_prepare_shift mp fr.2.1 offset o.prepO
    if pr.1 ≠ 0 then (pr.1, pr.2, [.freeSpace offset len, .prepShift offset])
    else if o.trans_alloc ≠ 0 then
      (o.trans_alloc, pr.2, [.freeSpace offset len, .prepShift offset])
    else
      let lr := collapseLoop shift_fsb o.commit o.steps
      (lr.1, pr.2,
       [.freeSpace offset len, .prepShift offset, .transAlloc] ++ lr.2)

/-! ## Extent swap -/

/-- `xfs_swap_extents_check_format` (xfs_bmap_util.c:1284).  `ip` is the
target inode, `tip` the temporary (donor) inode. -/
def xfs_swap_extents_check_format (mp : xfs_mount) (ip tip : xfs_inode) :
    Int :=
  -- quota ids must match if quotas are enforced
  if mp.quota_on ∧ (ip.i_uid ≠ tip.i_uid ∨ ip.i_gid ≠ tip.i_gid ∨
      ip.i_projid ≠ tip.i_projid) then -EINVAL
  -- should never get a local format
  else if ip.i_df.if_format = .localfmt ∨ tip.i_df.if_format = .localfmt then
    -EINVAL
  -- if the target inode has less extents than the temporary inode then
  -- why did userspace call us?
  else if ip.i_df.if_nextents < tip.i_df.if_nextents then -EINVAL
  -- the (expensive) rmap swap method handles any number and format
  else if mp.has_rmapbt then 0
  else if ip.i_df.if_format = .extents ∧ tip.i_df.if_format = .btree then
    -EINVAL
  -- check temp in extent form to max in target
  else if tip.i_df.if_format = .extents ∧
      tip.i_df.if_nextents > ip.df_maxext then -EINVAL
  -- check target in extent form to max in temp
  else if ip.i_df.if_format = .extents ∧
      ip.i_df.if_nextents > tip.df_maxext then -EINVAL
  -- btree root of the temp inode must fit in the target, and vice versa
  else if tip.i_df.if_format = .btree ∧
      ((ip.has_attr_fork ∧ tip.i_df.if_broot_space > ip.fork_boff) ∨
       tip.i_df.if_nextents ≤ ip.df_maxext) then -EINVAL
  else if ip.i_df.if_format = .btree ∧
      ((tip.has_attr_fork ∧ ip.i_df.if_broot_space > tip.fork_boff) ∨
       ip.i_df.if_nextents ≤ tip.df_maxext) then -EINVAL
  else 0

/-- `xfs_bmap_count_leaves` block total: real (non-delayed) blocks only. -/
def xfs_bmap_count_leaves_blocks (exts : List xfs_bmbt_irec) : Int :=
  (exts.map fun r =>
    match r.br_startblock with
    | .real _ => r.br_blockcount
    | _ => 0).sum

/-- `xfs_swap_extent_forks` (xfs_bmap_util.c:1516): swap the data forks,
fix the block counts by the attribute-fork overhead, carry the delayed
count over to the donor, and report which inodes need the bmbt owner
fixup.  `cnt_ip`/`cnt_tip` are the attr-fork `xfs_bmap_count_blocks`
collaborator errors. -/
def xfs_swap_extent_forks (mp : xfs_mount) (ip tip : xfs_inode)
    (cnt_ip cnt_tip : Int) : Except Int (xfs_inode × xfs_inode × Bool × Bool) :=
  let needCount (x : xfs_inode) : Bool :=
    x.has_attr_fork ∧ x.i_af.if_nextents > 0 ∧ x.i_af.if_format ≠ .localfmt
  if needCount ip ∧ cnt_ip ≠ 0 then .error cnt_ip
  else if needCount tip ∧ cnt_tip ≠ 0 then .error cnt_tip
  else
    let aforkblks :=
      if needCount ip then xfs_bmap_count_leaves_blocks ip.i_af.exts else 0
    let taforkblks :=
      if needCount tip then xfs_bmap_count_leaves_blocks tip.i_af.exts else 0
    -- owner-change log flags go on the opposite inode
    let tgtOwner := mp.has_v3inodes ∧ ip.i_df.if_format = .btree
    let srcOwner := mp.has_v3inodes ∧ tip.i_df.if_format = .btree
    let ip' :=
      { ip with
        i_df := tip.i_df,
        i_nblocks := tip.i_nblocks - taforkblks + aforkblks,
        i_delayed_blks := 0 }
    let tip' :=
      { tip with
        i_df := ip.i_df,
        i_nblocks := ip.i_nblocks + taforkblks - aforkblks,
        i_delayed_blks := ip.i_delayed_blks }
    .ok (ip', tip', srcOwner, tgtOwner)

def isRealSB : StartBlock → Bool
  | .real _ => true
  | _ => false

/-- Insert a record into a fork's sorted extent list. -/
def bmapInsertSorted (r : xfs_bmbt_irec) :
    List xfs_bmbt_irec → List xfs_bmbt_irec
  | [] => [r]
  | x :: xs =>
      if r.br_startoff ≤ x.br_startoff then r :: x :: xs
      else x :: bmapInsertSorted r xs

/-- Modelled from the spec: the net effect of one remap piece of the
reverse-map-safe swap (§4.7) — unmap `[off, off+rlen)` and map `piece`
there instead (piece already starts at `off` with length `rlen`; holes map
to nothing). -/
def exchangeMapping (f : xfs_ifork) (off rlen : Int) (piece : xfs_bmbt_irec) :
    xfs_ifork :=
  let removed := f.exts.flatMap fun r => subtractRange r off (off + rlen)
  { f with
    exts := if isRealSB piece.br_startblock then bmapInsertSorted piece removed
            else removed }

/-- The piece loop of `xfs_swap_extent_rmap` (xfs_bmap_util.c:1419-1504):
read the donor's mapping, read the target's mapping under it, trim to the
common length, and exchange; the deferred unmap/map intents are modelled by
their net effect on the two forks. -/
def xfs_swap_extent_rmap_go :
    Nat → xfs_inode → xfs_inode → Int → Int → xfs_inode × xfs_inode
  | 0, ip, tip, _, _ => (ip, tip)
  | fuel + 1, ip, tip, off, count =>
      if count ≤ 0 then (ip, tip)
      else
        let tirec := xfs_bmapi_read_one tip.i_df.exts off count
        let irec := xfs_bmapi_read_one ip.i_df.exts off tirec.br_blockcount
        let rlen := min tirec.br_blockcount irec.br_blockcount
        let uirec := { tirec with br_blockcount := rlen }
        let irec := { irec with br_blockcount := rlen }
        let ip' := { ip with i_df := exchangeMapping ip.i_df off rlen uirec }
        let tip' := { tip with i_df := exchangeMapping tip.i_df off rlen irec }
        xfs_swap_extent_rmap_go fuel ip' tip' (off + rlen) (count - rlen)

/-- `xfs_swap_extent_rmap` (xfs_bmap_util.c:1386); the donor's transient
reflink-hint flag is saved and restored by the source, so it has no net
effect here. -/
def xfs_swap_extent_rmap (mp : xfs_mount) (fuel : Nat) (ip tip : xfs_inode) :
    xfs_inode × xfs_inode :=
  xfs_swap_extent_rmap_go fuel ip tip 0 (XFS_B_TO_FSB mp ip.isize)

/-- `struct xfs_swapext`: the range descriptor plus the caller-supplied
timestamp fingerprint (`sx_stat`). -/
structure xfs_swapext where
  sx_offset : Int := 0
  sx_length : Int := 0
  bs_ctime_sec : Int := 0
  bs_ctime_nsec : Int := 0
  bs_mtime_sec : Int := 0
  bs_mtime_nsec : Int := 0
deriving Repr, DecidableEq

/-- Collaborator outcomes for `xfs_swap_extents`. -/
structure SwapOracle where
  dqattach_ip : Int := 0
  dqattach_tip : Int := 0
  flush_ip : Int := 0
  flush_tip : Int := 0
  cancel_cow : Int := 0
  trans_alloc : Int := 0
  count_ip : Int := 0
  count_tip : Int := 0
  rmap_fuel : Nat := 0
  owner_ip : Int := 0
  owner_tip : Int := 0
  commit : Int := 0

/-- Common post-steps of `xfs_swap_extents` (xfs_bmap_util.c:1806-1862):
reflink-flag exchange, CoW fork swap, owner fixup scans, commit. -/
def xfs_swap_extents_post (mp : xfs_mount) (ip tip : xfs_inode)
    (srcOwner tgtOwner : Bool) (o : SwapOracle) : Int × xfs_inode × xfs_inode :=
  let (ip, tip) :=
    if ip.diflags2_reflink ≠ tip.diflags2_reflink then
      ({ ip with diflags2_reflink := tip.diflags2_reflink },
       { tip with diflags2_reflink := ip.diflags2_reflink })
    else (ip, tip)
  let (ip, tip) :=
    if mp.has_reflink then
      ({ ip with i_cowfp := tip.i_cowfp }, { tip with i_cowfp := ip.i_cowfp })
    else (ip, tip)
  if srcOwner ∧ o.owner_ip ≠ 0 then (o.owner_ip, ip, tip)
  else if tgtOwner ∧ o.owner_tip ≠ 0 then (o.owner_tip, ip, tip)
  else (o.commit, ip, tip)

/-- `xfs_swap_extents` (xfs_bmap_util.c:1654). `ip` is the target inode,
`tip` the temporary (donor) inode. -/
def xfs_swap_extents (mp : xfs_mount) (ip tip : xfs_inode)
    (sxp : xfs_swapext) (o : SwapOracle) : Int × xfs_inode × xfs_inode :=
  -- verify both files have the same format and storage class
  if ip.mode_fmt ≠ tip.mode_fmt then (-EINVAL, ip, tip)
  else if ip.is_realtime ≠ tip.is_realtime then (-EINVAL, ip, tip)
  else if o.dqattach_ip ≠ 0 then (o.dqattach_ip, ip, tip)
  else if o.dqattach_tip ≠ 0 then (o.dqattach_tip, ip, tip)
  else if o.flush_ip ≠ 0 then (o.flush_ip, ip, tip)
  else if o.flush_tip ≠ 0 then (o.flush_tip, ip, tip)
  else if xfs_inode_has_cow_data tip ∧ o.cancel_cow ≠ 0 then
    (o.cancel_cow, ip, tip)
  else
    let tip :=
      if xfs_inode_has_cow_data tip then
        xfs_reflink_cancel_cow_range_model mp tip 0
      else tip
    if o.trans_alloc ≠ 0 then (o.trans_alloc, ip, tip)
    -- verify all data are being swapped
    else if sxp.sx_offset ≠ 0 ∨ sxp.sx_length ≠ ip.i_disk_size ∨
        sxp.sx_length ≠ tip.i_disk_size then (-EFAULT, ip, tip)
    else if xfs_swap_extents_check_format mp ip tip ≠ 0 then
      (xfs_swap_extents_check_format mp ip tip, ip, tip)
    -- compare the current change & modify times with those passed in
    else if sxp.bs_ctime_sec ≠ ip.ctime_sec ∨
        sxp.bs_ctime_nsec ≠ ip.ctime_nsec ∨
        sxp.bs_mtime_sec ≠ ip.mtime_sec ∨
        sxp.bs_mtime_nsec ≠ ip.mtime_nsec then (-EBUSY, ip, tip)
    else if mp.has_rmapbt then
      let (ip, tip) := xfs_swap_extent_rmap mp o.rmap_fuel ip tip
      xfs_swap_extents_post mp ip tip false false o
    else
      match xfs_swap_extent_forks mp ip tip o.count_ip o.count_tip with
      | .error e => (e, ip, tip)
      | .ok (ip, tip, srcOwner, tgtOwner) =>
          xfs_swap_extents_post mp ip tip srcOwner tgtOwner o

/-! ## Derived predicates used by the statements below -/

/-- Block `b` is covered by a delayed-allocation record of `exts`. -/
def hasDelallocAt (exts : List xfs_bmbt_irec) (b : Int) : Prop :=
  ∃ r ∈ exts, r.br_startblock = .delayed ∧ r.br_startoff ≤ b ∧ b < extEnd r

/-- The shift-loop traces the specification's collapse description allows:
shift calls alternate with finish-deferred-and-roll steps until a shift
reports completion (followed by the commit), or a step fails (followed by
the cancel, with nothing after); the empty trace covers an exhausted
oracle. -/
inductive ShiftTraceOK : List CEvent → Prop
  | fuelOut : ShiftTraceOK []
  | errShift (s : Int) : ShiftTraceOK [.shiftLeft s, .cancelTx]
  | doneShift (s : Int) : ShiftTraceOK [.shiftLeft s, .commitTx]
  | errDefer (s : Int) : ShiftTraceOK [.shiftLeft s, .deferRoll, .cancelTx]
  | more (s : Int) (rest : List CEvent) :
      ShiftTraceOK rest → ShiftTraceOK (.shiftLeft s :: .deferRoll :: rest)

/-! # Theorems -/

/-! ## C1: the extent-count precondition of the swap -/

/-- C1 (counterexample): the claim says `xfs_swap_extents` rejects the
swap whenever the donor (`tip`) has fewer data-fork extents than the
target (`ip`).  Here the donor has 0 extents, the target 1 — donor
strictly fewer — yet `xfs_swap_extents_check_format` accepts (returns 0):
the source's comparison runs the other way around. -/
theorem swap_check_format_donor_fewer_accepted :
    ({ i_df := { if_format := .extents, if_nextents := 0 }, df_maxext := 10 }
        : xfs_inode).i_df.if_nextents <
      ({ i_df := { if_format := .extents, if_nextents := 1 }, df_maxext := 10 }
        : xfs_inode).i_df.if_nextents ∧
    xfs_swap_extents_check_format {}
      { i_df := { if_format := .extents, if_nextents := 1 }, df_maxext := 10 }
      { i_df := { if_format := .extents, if_nextents := 0 }, df_maxext := 10 }
      = 0 := by
  decide

/-- C1 (amended): the extent-count precondition runs in the opposite
direction from the claim: `xfs_swap_extents_check_format` rejects with
`-EINVAL` whenever the **target** (`ip`) has fewer data-fork extents than
the donor (`tip`); and when the target has at least as many extents as
the donor (both forks in extent format, quota off, extent counts within
the opposite fork's inline capacity) the check passes. -/
theorem xfs_swap_extents_check_format_extent_count
    (mp : xfs_mount) (ip tip : xfs_inode) :
    (ip.i_df.if_nextents < tip.i_df.if_nextents →
      xfs_swap_extents_check_format mp ip tip = -EINVAL) ∧
    (¬mp.quota_on → ip.i_df.if_format = .extents →
      tip.i_df.if_format = .extents →
      tip.i_df.if_nextents ≤ ip.i_df.if_nextents →
      tip.i_df.if_nextents ≤ ip.df_maxext →
      ip.i_df.if_nextents ≤ tip.df_maxext →
      xfs_swap_extents_check_format mp ip tip = 0) := by
  constructor
  · intro h
    unfold xfs_swap_extents_check_format
    split_ifs <;> first | rfl | omega
  · intro hq hf1 hf2 hle hcap1 hcap2
    unfold xfs_swap_extents_check_format
    split_ifs <;> first | rfl | (exfalso; simp_all; try omega)

/-- C1 (witness): both directions at concrete inodes — a donor with more
extents than the target is rejected, a donor with fewer is let through
the extent-count check. -/
theorem xfs_swap_extents_check_format_extent_count_witness :
    xfs_swap_extents_check_format {}
      { i_df := { if_format := .extents, if_nextents := 1 }, df_maxext := 10 }
      { i_df := { if_format := .extents, if_nextents := 2 }, df_maxext := 10 }
      = -EINVAL ∧
    xfs_swap_extents_check_format {}
      { i_df := { if_format := .extents, if_nextents := 1 }, df_maxext := 10 }
      { i_df := { if_format := .extents, if_nextents := 0 }, df_maxext := 10 }
      = 0 :=
  ⟨(xfs_swap_extents_check_format_extent_count {} _ _).1 (by decide),
   (xfs_swap_extents_check_format_extent_count {} _ _).2 (by decide)
     (by decide) (by decide) (by decide) (by decide) (by decide)⟩

/-! ## C2: the timestamp fingerprint guard of the swap -/

/-- Discarding CoW staging extents touches no other inode field. -/
theorem cancel_cow_range_model_fields (mp : xfs_mount) (ip : xfs_inode)
    (off : Int) :
    (xfs_reflink_cancel_cow_range_model mp ip off).i_df = ip.i_df ∧
    (xfs_reflink_cancel_cow_range_model mp ip off).i_nblocks = ip.i_nblocks ∧
    (xfs_reflink_cancel_cow_range_model mp ip off).i_delayed_blks
      = ip.i_delayed_blks ∧
    (xfs_reflink_cancel_cow_range_model mp ip off).diflags2_reflink
      = ip.diflags2_reflink ∧
    (xfs_reflink_cancel_cow_range_model mp ip off).diflags_prealloc
      = ip.diflags_prealloc ∧
    (xfs_reflink_cancel_cow_range_model mp ip off).diflags_append
      = ip.diflags_append ∧
    (xfs_reflink_cancel_cow_range_model mp ip off).i_disk_size
      = ip.i_disk_size :=
  ⟨rfl, rfl, rfl, rfl, rfl, rfl, rfl⟩

/-- The format checks never read the CoW fork pointer. -/
theorem xfs_swap_extents_check_format_cowfp (mp : xfs_mount)
    (ip tip : xfs_inode) (c : Option xfs_ifork) :
    xfs_swap_extents_check_format mp ip { tip with i_cowfp := c } =
      xfs_swap_extents_check_format mp ip tip := rfl

/-- C2: when a swap reaches the timestamp comparison (both files same
kind and storage class, collaborators succeed, whole-file range, formats
compatible) and the caller's fingerprint differs from the target's
current timestamps, `xfs_swap_extents` returns `-EBUSY`
(ConcurrentModification) and neither file's data-fork extent mappings,
block count, delayed-block count, or flags have been mutated — the
transaction is cancelled before any fork change.  (The donor's
copy-on-write staging fork is the one thing already discarded by the
pre-swap flush step, so the donor is wholly unchanged whenever it had no
staged CoW data.) -/
theorem xfs_swap_extents_timestamp_mismatch (mp : xfs_mount)
    (ip tip : xfs_inode) (sxp : xfs_swapext) (o : SwapOracle)
    (hmode : ip.mode_fmt = tip.mode_fmt)
    (hrt : ip.is_realtime = tip.is_realtime)
    (hdq1 : o.dqattach_ip = 0) (hdq2 : o.dqattach_tip = 0)
    (hf1 : o.flush_ip = 0) (hf2 : o.flush_tip = 0)
    (hcc : o.cancel_cow = 0) (htr : o.trans_alloc = 0)
    (hoff : sxp.sx_offset = 0)
    (hlen1 : sxp.sx_length = ip.i_disk_size)
    (hlen2 : sxp.sx_length = tip.i_disk_size)
    (hfmt : xfs_swap_extents_check_format mp ip tip = 0)
    (hts : sxp.bs_ctime_sec ≠ ip.ctime_sec ∨
           sxp.bs_ctime_nsec ≠ ip.ctime_nsec ∨
           sxp.bs_mtime_sec ≠ ip.mtime_sec ∨
           sxp.bs_mtime_nsec ≠ ip.mtime_nsec) :
    (xfs_swap_extents mp ip tip sxp o).1 = -EBUSY ∧
    (xfs_swap_extents mp ip tip sxp o).2.1 = ip ∧
    ((xfs_swap_extents mp ip tip sxp o).2.2).i_df = tip.i_df ∧
    ((xfs_swap_extents mp ip tip sxp o).2.2).i_nblocks = tip.i_nblocks ∧
    ((xfs_swap_extents mp ip tip sxp o).2.2).i_delayed_blks
      = tip.i_delayed_blks ∧
    ((xfs_swap_extents mp ip tip sxp o).2.2).diflags2_reflink
      = tip.diflags2_reflink ∧
    ((xfs_swap_extents mp ip tip sxp o).2.2).diflags_prealloc
      = tip.diflags_prealloc ∧
    ((xfs_swap_extents mp ip tip sxp o).2.2).diflags_append
      = tip.diflags_append ∧
    (xfs_inode_has_cow_data tip = false →
      (xfs_swap_extents mp ip tip sxp o).2.2 = tip) := by
  have hswap : xfs_swap_extents mp ip tip sxp o =
      (-EBUSY, ip,
        if xfs_inode_has_cow_data tip then
          xfs_reflink_cancel_cow_range_model mp tip 0
        else tip) := by
    unfold xfs_swap_extents
    rw [if_neg (by simp [hmode]), if_neg (by simp [hrt]),
        if_neg (by simp [hdq1]), if_neg (by simp [hdq2]),
        if_neg (by simp [hf1]), if_neg (by simp [hf2]),
        if_neg (by simp [hcc])]
    by_cases hcow : xfs_inode_has_cow_data tip
    · simp only [hcow, if_true, if_pos]
      rw [if_neg (by simp [htr]),
          if_neg (by
            simp only [xfs_reflink_cancel_cow_range_model]
            simp [hoff, ← hlen1, ← hlen2]),
          if_neg (by
            simp only [xfs_reflink_cancel_cow_range_model,
              xfs_swap_extents_check_format_cowfp]
            simp [hfmt]),
          if_pos hts]
    · simp only [hcow, if_false, Bool.false_eq_true]
      rw [if_neg (by simp [htr]),
          if_neg (by simp [hoff, ← hlen1, ← hlen2]),
          if_neg (by simp [hfmt]), if_pos hts]
  rw [hswap]
  cases hcow : xfs_inode_has_cow_data tip <;>
    simp [hcow, xfs_reflink_cancel_cow_range_model]

/-- C2 (witness): a concrete pair rejected with `-EBUSY` on a ctime
mismatch, both inodes untouched. -/
theorem xfs_swap_extents_timestamp_mismatch_witness :
    (xfs_swap_extents {} { ctime_sec := 5 } {} { bs_ctime_sec := 99 } {}).1
      = -EBUSY ∧
    (xfs_swap_extents {} { ctime_sec := 5 } {} { bs_ctime_sec := 99 } {}).2.1
      = { ctime_sec := 5 } ∧
    (xfs_swap_extents {} { ctime_sec := 5 } {} { bs_ctime_sec := 99 } {}).2.2
      = {} :=
  ⟨(xfs_swap_extents_timestamp_mismatch {} { ctime_sec := 5 } {} _ {} rfl rfl
      rfl rfl rfl rfl rfl rfl rfl rfl rfl rfl (Or.inl (by decide))).1,
   (xfs_swap_extents_timestamp_mismatch {} { ctime_sec := 5 } {} _ {} rfl rfl
      rfl rfl rfl rfl rfl rfl rfl rfl rfl rfl (Or.inl (by decide))).2.1,
   (xfs_swap_extents_timestamp_mismatch {} { ctime_sec := 5 } {} _ {} rfl rfl
      rfl rfl rfl rfl rfl rfl rfl rfl rfl rfl (Or.inl (by decide))).2.2.2.2.2.2.2.2
     rfl⟩

/-! ## C3: delayed-allocation visibility and the block sentinels -/

/-- C3: a delayed-allocation record produces no output record unless the
caller set `BMV_IF_DELALLOC`; when it did, the emitted record carries the
`BMV_OF_DELALLOC` flag and the physical-block sentinel `-2`; and every
record `xfs_getbmap_report_hole` appends carries the sentinel `-1`. -/
theorem xfs_getbmap_delalloc_visibility (mp : xfs_mount) (ip : xfs_inode)
    (o : GetbmapOracle) (bmv : getbmapx) (out : List kgetbmap)
    (bmv_end : Int) (got : xfs_bmbt_irec)
    (htrim : o.trim got = (0, got, false))
    (hdel : got.br_startblock = .delayed) :
    (bmv.bmv_iflags &&& BMV_IF_DELALLOC = 0 →
      xfs_getbmap_report_one mp ip o bmv out bmv_end got = (0, bmv, out, got)) ∧
    (bmv.bmv_iflags &&& BMV_IF_DELALLOC ≠ 0 →
      ∃ p, (xfs_getbmap_report_one mp ip o bmv out bmv_end got).2.2.1
          = out ++ [p] ∧
        p.bmv_block = -2 ∧ p.bmv_oflags &&& BMV_OF_DELALLOC ≠ 0 ∧
        (xfs_getbmap_report_one mp ip o bmv out bmv_end got).2.1.bmv_entries
          = bmv.bmv_entries + 1 ∧
        (xfs_getbmap_report_one mp ip o bmv out bmv_end got).1 = 0) ∧
    (∀ (bmvH : getbmapx) (outH : List kgetbmap) (bmv_endH bnoH eH : Int),
      ∀ p ∈ (xfs_getbmap_report_hole mp bmvH outH bmv_endH bnoH eH).2,
        p ∈ outH ∨ p.bmv_block = -1) := by
  refine ⟨?_, ?_, ?_⟩
  · intro hflag
    simp only [xfs_getbmap_report_one, htrim, hdel]
    simp [hflag]
  · intro hflag
    simp only [xfs_getbmap_report_one, htrim, hdel]
    simp only [if_neg (by simp : ¬((0:Int) ≠ 0)), if_pos rfl, if_neg hflag]
    refine ⟨_, rfl, rfl, ?_, rfl, rfl⟩
    by_cases hu : got.br_unwritten ∧ bmv.bmv_iflags &&& BMV_IF_PREALLOC ≠ 0 <;>
      simp [hu, BMV_OF_DELALLOC, BMV_OF_PREALLOC]
  · intro bmvH outH bmv_endH bnoH eH p hp
    unfold xfs_getbmap_report_hole at hp
    by_cases hnh : bmvH.bmv_iflags &&& BMV_IF_NO_HOLES ≠ 0
    · simp [hnh] at hp
      exact Or.inl hp
    · simp [hnh] at hp
      rcases hp with hp | hp
      · exact Or.inl hp
      · exact Or.inr (by simp [hp])

/-- C3 (witness): a concrete delayed record is skipped without the flag
and reported with sentinel `-2` and the delalloc flag with it. -/
theorem xfs_getbmap_delalloc_visibility_witness :
    (xfs_getbmap_report_one {} {} {}
        { bmv_count := 10, bmv_length := 5 } [] 5
        { br_startblock := .delayed, br_blockcount := 1 }
      = (0, { bmv_count := 10, bmv_length := 5 }, [],
         { br_startblock := .delayed, br_blockcount := 1 })) ∧
    (∃ p, (xfs_getbmap_report_one {} {} {}
        { bmv_count := 10, bmv_length := 5, bmv_iflags := BMV_IF_DELALLOC }
        [] 5 { br_startblock := .delayed, br_blockcount := 1 }).2.2.1
          = [] ++ [p] ∧
      p.bmv_block = -2 ∧ p.bmv_oflags &&& BMV_OF_DELALLOC ≠ 0 ∧
      (xfs_getbmap_report_one {} {} {}
        { bmv_count := 10, bmv_length := 5, bmv_iflags := BMV_IF_DELALLOC }
        [] 5 { br_startblock := .delayed, br_blockcount := 1 }).2.1.bmv_entries
          = ({ bmv_count := 10, bmv_length := 5, bmv_iflags := BMV_IF_DELALLOC }
              : getbmapx).bmv_entries + 1 ∧
      (xfs_getbmap_report_one {} {} {}
        { bmv_count := 10, bmv_length := 5, bmv_iflags := BMV_IF_DELALLOC }
        [] 5 { br_startblock := .delayed, br_blockcount := 1 }).1 = 0) :=
  ⟨(xfs_getbmap_delalloc_visibility {} {} {} _ [] 5 _ rfl rfl).1 (by decide),
   (xfs_getbmap_delalloc_visibility {} {} {} _ [] 5 _ rfl rfl).2.1 (by decide)⟩

/-! ## C4: the trailing hole and the final flag -/

/-- `markLast` flags exactly the final record. -/
theorem markLast_getLast (out : List kgetbmap) (p : kgetbmap)
    (h : out.getLast? = some p) :
    (markLast out).getLast? =
      some { p with bmv_oflags := p.bmv_oflags ||| BMV_OF_LAST } := by
  induction out with
  | nil => cases h
  | cons a l ih =>
      cases l with
      | nil =>
          simp only [List.getLast?_singleton, Option.some.injEq] at h
          subst h
          rfl
      | cons b m =>
          rw [List.getLast?_cons_cons] at h
          have hrec := ih h
          show (markLast (a :: b :: m)).getLast? = _
          have hshape : markLast (a :: b :: m) = a :: markLast (b :: m) := rfl
          rw [hshape]
          cases hm : markLast (b :: m) with
          | nil => rw [hm] at hrec; cases hrec
          | cons c n =>
              rw [hm] at hrec
              rw [List.getLast?_cons_cons]
              exact hrec

/-- C4 (counterexample): a file whose single extent ends before end of
file, queried with ample capacity.  The scan exhausts the fork, the
trailing hole up to EOF **is** synthesized, but the `BMV_OF_LAST` flag
sits on the record emitted before the hole: the last emitted record (the
hole, sentinel `-1`) does not carry the final flag, contradicting the
claim that the last emitted record is the flagged one. -/
theorem xfs_getbmap_trailing_hole_unflagged :
    xfs_getbmap { blocklog := 9, agblklog := 20, agblocks := 1048576 }
      { isize := 1024, i_disk_size := 1024,
        i_df := { if_format := .extents,
                  exts := [{ br_startoff := 0, br_startblock := .real 100,
                             br_blockcount := 1 }] } }
      {} 4 { bmv_offset := 0, bmv_length := 10, bmv_count := 10 } =
      (0, { bmv_offset := 2, bmv_length := 8, bmv_count := 10,
            bmv_entries := 2 },
       [{ bmv_offset := 0, bmv_block := 100, bmv_length := 1,
          bmv_oflags := BMV_OF_LAST },
        { bmv_offset := 1, bmv_block := -1, bmv_length := 1,
          bmv_oflags := 0 }]) ∧
    -- the trailing hole is last and unflagged; the previous record is
    -- the one with BMV_OF_LAST
    (0 : Nat) &&& BMV_OF_LAST = 0 ∧ BMV_OF_LAST &&& BMV_OF_LAST ≠ 0 := by
  refine ⟨by decide, by decide, by decide⟩

/-- C4 (amended): when the scan exhausts the fork's extents before end of
file with capacity left (data or CoW fork, hole reporting not
suppressed, at least one record already emitted), `xfs_getbmap` does
synthesize the trailing hole record up to end of file, but the final
flag (`BMV_OF_LAST`) is set on the last record emitted **before** that
hole — the trailing hole record itself carries no flag, so the flagged
record is the penultimate one of the output. -/
theorem xfs_getbmap_scan_finish_last_flag (mp : xfs_mount) (ip : xfs_inode)
    (wf : WhichFork) (bmv : getbmapx) (out : List kgetbmap)
    (bmv_end bno : Int)
    (hwf : wf ≠ .attr)
    (hent : 0 < bmv.bmv_entries)
    (hbno : bno < XFS_B_TO_FSB mp ip.isize)
    (hfull : xfs_getbmap_full bmv = false)
    (hnh : bmv.bmv_iflags &&& BMV_IF_NO_HOLES = 0) :
    (xfs_getbmap_scan_finish mp ip wf bmv out bmv_end bno).2.2 =
      markLast out ++
        [{ bmv_block := -1, bmv_offset := XFS_FSB_TO_BB mp bno,
           bmv_length := XFS_FSB_TO_BB mp (XFS_B_TO_FSB mp ip.isize - bno),
           bmv_oflags := 0 }] ∧
    ((xfs_getbmap_scan_finish mp ip wf bmv out bmv_end bno).2.2).getLast?
      = some { bmv_block := -1, bmv_offset := XFS_FSB_TO_BB mp bno,
               bmv_length := XFS_FSB_TO_BB mp (XFS_B_TO_FSB mp ip.isize - bno),
               bmv_oflags := 0 } ∧
    (0 : Nat) &&& BMV_OF_LAST = 0 ∧
    (∀ p, out.getLast? = some p →
      (markLast out).getLast? =
        some { p with bmv_oflags := p.bmv_oflags ||| BMV_OF_LAST }) := by
  have hcond : wf ≠ WhichFork.attr ∧ bno < XFS_B_TO_FSB mp ip.isize ∧
      ¬xfs_getbmap_full bmv := ⟨hwf, hbno, by simp [hfull]⟩
  have hres : xfs_getbmap_scan_finish mp ip wf bmv out bmv_end bno =
      (0, (xfs_getbmap_report_hole mp bmv (markLast out) bmv_end bno
            (XFS_B_TO_FSB mp ip.isize)).1,
          (xfs_getbmap_report_hole mp bmv (markLast out) bmv_end bno
            (XFS_B_TO_FSB mp ip.isize)).2) := by
    unfold xfs_getbmap_scan_finish
    rw [if_pos hent, if_pos hcond]
  rw [hres]
  refine ⟨?_, ?_, by decide, markLast_getLast out⟩
  · unfold xfs_getbmap_report_hole
    rw [if_neg (by simp [hnh])]
  · unfold xfs_getbmap_report_hole
    rw [if_neg (by simp [hnh])]
    simp

/-- C4 (witness): the amended statement at the counterexample's exit
state. -/
theorem xfs_getbmap_scan_finish_last_flag_witness :
    (xfs_getbmap_scan_finish { blocklog := 9 } { isize := 1024 } .data
      { bmv_offset := 1, bmv_length := 9, bmv_count := 10, bmv_entries := 1 }
      [{ bmv_offset := 0, bmv_block := 100, bmv_length := 1 }] 10 1).2.2 =
      [{ bmv_offset := 0, bmv_block := 100, bmv_length := 1,
         bmv_oflags := BMV_OF_LAST },
       { bmv_block := -1, bmv_offset := 1, bmv_length := 1,
         bmv_oflags := 0 }] := by
  have h := (xfs_getbmap_scan_finish_last_flag { blocklog := 9 }
    { isize := 1024 } .data
    { bmv_offset := 1, bmv_length := 9, bmv_count := 10, bmv_entries := 1 }
    [{ bmv_offset := 0, bmv_block := 100, bmv_length := 1 }] 10 1
    (by decide) (by decide) (by decide) (by decide) (by decide)).1
  rw [h]
  rfl

/-! ## C5: post-EOF reclamation for preallocated/append-only files -/

/-- Punching a sub-range out of a delayed record yields delayed pieces. -/
theorem subtractRange_delayed (r : xfs_bmbt_irec) (s e : Int)
    (h : r.br_startblock = .delayed) :
    ∀ p ∈ subtractRange r s e, p.br_startblock = .delayed := by
  intro p hp
  unfold subtractRange at hp
  split_ifs at hp <;> simp_all
  rcases hp with rfl | rfl <;> rfl

/-- Block-level effect of `subtractRange`: exactly the blocks of `r`
outside `[s, e)` stay covered. -/
theorem subtractRange_cover (r : xfs_bmbt_irec) (s e b : Int) :
    (∃ p ∈ subtractRange r s e, p.br_startoff ≤ b ∧ b < extEnd p) ↔
    ((r.br_startoff ≤ b ∧ b < extEnd r) ∧ ¬(s ≤ b ∧ b < e)) := by
  unfold subtractRange extEnd
  split_ifs <;> simp_all <;> omega

/-- Block-level effect of the delalloc punch: delayed coverage outside
`[s, e)` is untouched, inside it is removed; real records are kept. -/
theorem hasDelallocAt_punch (exts : List xfs_bmbt_irec) (s e b : Int) :
    hasDelallocAt (exts.flatMap fun r =>
      if r.br_startblock = .delayed then subtractRange r s e else [r]) b ↔
    (hasDelallocAt exts b ∧ ¬(s ≤ b ∧ b < e)) := by
  induction exts with
  | nil => simp [hasDelallocAt]
  | cons r rs ih =>
      unfold hasDelallocAt at ih ⊢
      constructor
      · rintro ⟨p, hp, hdel, hb1, hb2⟩
        rw [List.flatMap_cons, List.mem_append] at hp
        rcases hp with hp | hp
        · by_cases hr : r.br_startblock = .delayed
          · rw [if_pos hr] at hp
            have hcov := (subtractRange_cover r s e b).1 ⟨p, hp, hb1, hb2⟩
            exact ⟨⟨r, List.mem_cons_self r rs, hr, hcov.1.1, hcov.1.2⟩,
              hcov.2⟩
          · rw [if_neg hr] at hp
            simp only [List.mem_singleton] at hp
            subst hp
            exact absurd hdel hr
        · obtain ⟨hmem, hout⟩ := ih.1 ⟨p, hp, hdel, hb1, hb2⟩
          obtain ⟨q, hq, h1, h2, h3⟩ := hmem
          exact ⟨⟨q, List.mem_cons_of_mem r hq, h1, h2, h3⟩, hout⟩
      · rintro ⟨⟨p, hp, hdel, hb1, hb2⟩, hout⟩
        rw [List.mem_cons] at hp
        rcases hp with rfl | hp
        · obtain ⟨q, hq, hq1, hq2⟩ :=
            (subtractRange_cover p s e b).2 ⟨⟨hb1, hb2⟩, hout⟩
          refine ⟨q, ?_, subtractRange_delayed p s e hdel q hq, hq1, hq2⟩
          rw [List.flatMap_cons, List.mem_append]
          exact Or.inl (by rw [if_pos hdel]; exact hq)
        · obtain ⟨q, hq, h1, h2, h3⟩ := ih.2 ⟨⟨p, hp, hdel, hb1, hb2⟩, hout⟩
          refine ⟨q, ?_, h1, h2, h3⟩
          rw [List.flatMap_cons, List.mem_append]
          exact Or.inr hq

/-- The delalloc punch never touches a real (allocated) record. -/
theorem punch_filter_real (exts : List xfs_bmbt_irec) (s e : Int) :
    (exts.flatMap fun r =>
      if r.br_startblock = .delayed then subtractRange r s e
      else [r]).filter (fun x => isRealSB x.br_startblock) =
    exts.filter (fun x => isRealSB x.br_startblock) := by
  induction exts with
  | nil => rfl
  | cons r rs ih =>
      rw [List.flatMap_cons, List.filter_append, ih]
      by_cases hr : r.br_startblock = .delayed
      · rw [if_pos hr]
        have hnil : (subtractRange r s e).filter
            (fun x => isRealSB x.br_startblock) = [] := by
          rw [List.filter_eq_nil_iff]
          intro p hp
          rw [subtractRange_delayed r s e hr p hp]
          simp [isRealSB]
        rw [hnil, List.filter_cons, if_neg (by rw [hr]; simp [isRealSB])]
        simp
      · rw [if_neg hr]
        cases hpr : isRealSB r.br_startblock <;>
          simp [List.filter_cons, hpr]

/-- C5: for a file flagged persistent-preallocated or append-only,
`xfs_free_eofblocks` succeeds without running the truncating
transaction; it does nothing at all when the delayed-block count is
zero, and otherwise punches exactly the delayed-allocation blocks from
the block-size-rounded-up end of file to the maximum offset — real
records and delayed blocks below that boundary are left unchanged. -/
theorem xfs_free_eofblocks_prealloc (mp : xfs_mount) (ip : xfs_inode)
    (o : EofOracle)
    (hdq : o.dqattach = 0)
    (hflag : ip.diflags_prealloc ∨ ip.diflags_append) :
    (xfs_free_eofblocks mp ip o).1 = 0 ∧
    (xfs_free_eofblocks mp ip o).2.2 = false ∧
    (ip.i_delayed_blks = 0 → (xfs_free_eofblocks mp ip o).2.1 = ip) ∧
    ((xfs_free_eofblocks mp ip o).2.1.i_df.exts.filter
        (fun x => isRealSB x.br_startblock) =
      ip.i_df.exts.filter (fun x => isRealSB x.br_startblock)) ∧
    (∀ b : Int,
      b < XFS_B_TO_FSBT mp (round_up_64 ip.isize (blocksize mp)) →
      (hasDelallocAt (xfs_free_eofblocks mp ip o).2.1.i_df.exts b ↔
        hasDelallocAt ip.i_df.exts b)) ∧
    (ip.i_delayed_blks ≠ 0 → ∀ b : Int,
      XFS_B_TO_FSBT mp (round_up_64 ip.isize (blocksize mp)) ≤ b →
      b < XFS_B_TO_FSB mp LLONG_MAX →
      ¬hasDelallocAt (xfs_free_eofblocks mp ip o).2.1.i_df.exts b) := by
  unfold xfs_free_eofblocks
  rw [if_neg (by simp [hdq]), if_pos hflag]
  by_cases hdel : ip.i_delayed_blks ≠ 0
  · rw [if_pos hdel]
    unfold xfs_bmap_punch_delalloc_range
    dsimp only
    refine ⟨rfl, rfl, fun h => absurd h hdel, punch_filter_real _ _ _,
      fun b hb => ?_, fun _ b hb1 hb2 => ?_⟩
    · rw [hasDelallocAt_punch]
      exact ⟨fun h => h.1, fun h => ⟨h, by omega⟩⟩
    · rw [hasDelallocAt_punch]
      rintro ⟨-, hno⟩
      exact hno ⟨hb1, hb2⟩
  · rw [if_neg hdel]
    push_neg at hdel
    exact ⟨rfl, rfl, fun _ => rfl, rfl, fun b hb => Iff.rfl,
      fun h => absurd hdel h⟩

/-- C5 (witness): a flagged file with one real and two delayed records,
end of file inside the second block: the punch removes the delayed block
past EOF, keeps the real record and the delayed block below EOF. -/
theorem xfs_free_eofblocks_prealloc_witness :
    (xfs_free_eofblocks { blocklog := 9 }
      { isize := 700, diflags_prealloc := true, i_delayed_blks := 3,
        i_df := { exts :=
          [{ br_startoff := 0, br_startblock := .real 50, br_blockcount := 1 },
           { br_startoff := 1, br_startblock := .delayed, br_blockcount := 1 },
           { br_startoff := 5, br_startblock := .delayed,
             br_blockcount := 2 }] } } {}).1 = 0 ∧
    (xfs_free_eofblocks { blocklog := 9 }
      { isize := 700, diflags_prealloc := true, i_delayed_blks := 3,
        i_df := { exts :=
          [{ br_startoff := 0, br_startblock := .real 50, br_blockcount := 1 },
           { br_startoff := 1, br_startblock := .delayed, br_blockcount := 1 },
           { br_startoff := 5, br_startblock := .delayed,
             br_blockcount := 2 }] } } {}).2.2 = false ∧
    ¬hasDelallocAt (xfs_free_eofblocks { blocklog := 9 }
      { isize := 700, diflags_prealloc := true, i_delayed_blks := 3,
        i_df := { exts :=
          [{ br_startoff := 0, br_startblock := .real 50, br_blockcount := 1 },
           { br_startoff := 1, br_startblock := .delayed, br_blockcount := 1 },
           { br_startoff := 5, br_startblock := .delayed,
             br_blockcount := 2 }] } } {}).2.1.i_df.exts 5 ∧
    (hasDelallocAt (xfs_free_eofblocks { blocklog := 9 }
      { isize := 700, diflags_prealloc := true, i_delayed_blks := 3,
        i_df := { exts :=
          [{ br_startoff := 0, br_startblock := .real 50, br_blockcount := 1 },
           { br_startoff := 1, br_startblock := .delayed, br_blockcount := 1 },
           { br_startoff := 5, br_startblock := .delayed,
             br_blockcount := 2 }] } } {}).2.1.i_df.exts 1 ↔
     hasDelallocAt
          [{ br_startoff := 0, br_startblock := .real 50, br_blockcount := 1 },
           { br_startoff := 1, br_startblock := .delayed, br_blockcount := 1 },
           { br_startoff := 5, br_startblock := .delayed,
             br_blockcount := 2 }] 1) := by
  have h := xfs_free_eofblocks_prealloc { blocklog := 9 }
    { isize := 700, diflags_prealloc := true, i_delayed_blks := 3,
      i_df := { exts :=
        [{ br_startoff := 0, br_startblock := .real 50, br_blockcount := 1 },
         { br_startoff := 1, br_startblock := .delayed, br_blockcount := 1 },
         { br_startoff := 5, br_startblock := .delayed,
           br_blockcount := 2 }] } } {} rfl (Or.inl rfl)
  exact ⟨h.1, h.2.1, h.2.2.2.2.2 (by decide) 5 (by decide) (by decide),
    h.2.2.2.2.1 1 (by decide)⟩

/-! ## C6: the allocation loop's retry policy -/

/-- C6: in `xfs_alloc_file_space`'s loop, a `-ENOSR` from the allocator
retries the next iteration with the same starting offset and remaining
length; a successful allocation advances both by exactly the allocated
extent's block count; any other allocator error aborts the call with that
error. -/
theorem allocLoop_retry_policy (mp : xfs_mount) (rt : Bool) (extsz : Int)
    (st : AllocState) (o : AllocStep) (os : List AllocStep)
    (hrem : st.allocatesize_fsb ≠ 0)
    (hta : ∀ d r, o.trans_alloc d r = 0)
    (hiext : o.iext_may_overflow = 0) :
    (o.bmapi = .error (-ENOSR) → o.commit = 0 →
      allocLoop mp rt extsz st (o :: os) =
        allocLoop mp rt extsz { st with diflags_prealloc := true } os) ∧
    (∀ cnt, o.bmapi = .ok cnt → o.commit = 0 →
      allocLoop mp rt extsz st (o :: os) =
        allocLoop mp rt extsz
          { startoffset_fsb := st.startoffset_fsb + cnt,
            allocatesize_fsb := st.allocatesize_fsb - cnt,
            diflags_prealloc := true } os) ∧
    (∀ e, o.bmapi = .error e → e ≠ -ENOSR →
      allocLoop mp rt extsz st (o :: os) = (e, st)) := by
  refine ⟨?_, ?_, ?_⟩
  · intro hb hc
    simp only [allocLoop, hrem, hta, hb, hc, hiext]
    norm_num [ENOSR, EFBIG]
  · intro cnt hb hc
    simp only [allocLoop, hrem, hta, hb, hc, hiext]
    norm_num [EFBIG]
  · intro e hb he
    simp only [allocLoop, hrem, hta, hb, hiext]
    norm_num [EFBIG, he]

/-- C6 (witness): one concrete iteration of each kind. -/
theorem allocLoop_retry_policy_witness :
    (allocLoop {} false 0 { startoffset_fsb := 0, allocatesize_fsb := 5 }
        [{ bmapi := .error (-ENOSR) }] =
      allocLoop {} false 0
        { startoffset_fsb := 0, allocatesize_fsb := 5,
          diflags_prealloc := true } []) ∧
    (allocLoop {} false 0 { startoffset_fsb := 0, allocatesize_fsb := 5 }
        [{ bmapi := .ok 2 }] =
      allocLoop {} false 0
        { startoffset_fsb := 2, allocatesize_fsb := 3,
          diflags_prealloc := true } []) ∧
    (allocLoop {} false 0 { startoffset_fsb := 0, allocatesize_fsb := 5 }
        [{ bmapi := .error (- EIO) }] =
      (- EIO, { startoffset_fsb := 0, allocatesize_fsb := 5 })) :=
  ⟨(allocLoop_retry_policy {} false 0 _ _ [] (by decide) (fun _ _ => rfl)
      rfl).1 rfl rfl,
   (allocLoop_retry_policy {} false 0 _ _ [] (by decide) (fun _ _ => rfl)
      rfl).2.1 2 rfl rfl,
   (allocLoop_retry_policy {} false 0 _ _ [] (by decide) (fun _ _ => rfl)
      rfl).2.2 (- EIO) rfl (by decide)⟩

/-! ## C9: the output never fills the last slot of the buffer -/

/-- Each call of `xfs_getbmap_report_one` preserves the capacity field
and either emits nothing or appends exactly one record, keeping
`bmv_entries` equal to the number of records written. -/
theorem xfs_getbmap_report_one_shape (mp : xfs_mount) (ip : xfs_inode)
    (o : GetbmapOracle) (bmv : getbmapx) (out : List kgetbmap)
    (bmv_end : Int) (got : xfs_bmbt_irec) :
    (xfs_getbmap_report_one mp ip o bmv out bmv_end got).2.1.bmv_count
      = bmv.bmv_count ∧
    (((xfs_getbmap_report_one mp ip o bmv out bmv_end got).2.1.bmv_entries
        = bmv.bmv_entries ∧
      (xfs_getbmap_report_one mp ip o bmv out bmv_end got).2.2.1 = out) ∨
     ((xfs_getbmap_report_one mp ip o bmv out bmv_end got).2.1.bmv_entries
        = bmv.bmv_entries + 1 ∧
      (xfs_getbmap_report_one mp ip o bmv out bmv_end got).2.2.1.length
        = out.length + 1)) := by
  simp only [xfs_getbmap_report_one]
  split_ifs <;> simp

/-- Same shape fact for `xfs_getbmap_report_hole`. -/
theorem xfs_getbmap_report_hole_shape (mp : xfs_mount) (bmv : getbmapx)
    (out : List kgetbmap) (bmv_end bno e : Int) :
    (xfs_getbmap_report_hole mp bmv out bmv_end bno e).1.bmv_count
      = bmv.bmv_count ∧
    (((xfs_getbmap_report_hole mp bmv out bmv_end bno e).1.bmv_entries
        = bmv.bmv_entries ∧
      (xfs_getbmap_report_hole mp bmv out bmv_end bno e).2 = out) ∨
     ((xfs_getbmap_report_hole mp bmv out bmv_end bno e).1.bmv_entries
        = bmv.bmv_entries + 1 ∧
      (xfs_getbmap_report_hole mp bmv out bmv_end bno e).2.length
        = out.length + 1)) := by
  simp only [xfs_getbmap_report_hole]
  split_ifs <;> simp

/-- A non-full header has at least two slots of headroom. -/
theorem xfs_getbmap_full_false (bmv : getbmapx)
    (h : xfs_getbmap_full bmv = false) :
    bmv.bmv_entries + 1 ≤ bmv.bmv_count - 1 ∧
    bmv.bmv_entries ≤ bmv.bmv_count - 1 := by
  simp only [xfs_getbmap_full, decide_eq_false_iff_not, not_or] at h
  omega

/-- The inner splitting loop keeps `bmv_entries` in sync with the output
and below the capacity bound, provided it starts non-full. -/
theorem getbmapInner_inv (mp : xfs_mount) (ip : xfs_inode)
    (o : GetbmapOracle) (bmv_end : Int) (fuel : Nat) :
    ∀ (bmv : getbmapx) (out : List kgetbmap) (rec : xfs_bmbt_irec)
      (bno : Int),
      bmv.bmv_entries = (out.length : Int) →
      xfs_getbmap_full bmv = false →
      (getbmapInner mp ip o bmv_end fuel bmv out rec bno).2.1.bmv_count
        = bmv.bmv_count ∧
      (getbmapInner mp ip o bmv_end fuel bmv out rec bno).2.1.bmv_entries
        = ((getbmapInner mp ip o bmv_end fuel bmv out rec bno).2.2.1.length
            : Int) ∧
      (getbmapInner mp ip o bmv_end fuel bmv out rec bno).2.1.bmv_entries
        ≤ bmv.bmv_count - 1 := by
  induction fuel with
  | zero =>
      intro bmv out rec bno hsync hfull
      exact ⟨rfl, hsync, (xfs_getbmap_full_false bmv hfull).2⟩
  | succ n ih =>
      intro bmv out rec bno hsync hfull
      obtain ⟨hc, hsh⟩ :=
        xfs_getbmap_report_one_shape mp ip o bmv out bmv_end rec
      have hbound := (xfs_getbmap_full_false bmv hfull).1
      simp only [getbmapInner]
      split_ifs with hstop
      · refine ⟨hc, ?_, ?_⟩ <;> rcases hsh with ⟨h1, h2⟩ | ⟨h1, h2⟩ <;>
          simp [h1, h2, hsync] <;> omega
      · push_neg at hstop
        have hfull' : xfs_getbmap_full
            (xfs_getbmap_report_one mp ip o bmv out bmv_end rec).2.1
            = false := by
          rcases hstop with ⟨-, h2⟩
          simpa using h2
        have hsync' : (xfs_getbmap_report_one mp ip o bmv out bmv_end
            rec).2.1.bmv_entries =
            (((xfs_getbmap_report_one mp ip o bmv out bmv_end
              rec).2.2.1.length : Int)) := by
          rcases hsh with ⟨h1, h2⟩ | ⟨h1, h2⟩ <;> simp [h1, h2, hsync] <;> omega
        cases hnext : xfs_getbmap_next_rec
            (xfs_getbmap_report_one mp ip o bmv out bmv_end rec).2.2.2 bno with
        | none =>
            have hb := (xfs_getbmap_full_false _ hfull').2
            rw [hc] at hb
            exact ⟨hc, hsync', hb⟩
        | some rec' =>
            obtain ⟨ic, isync, ibound⟩ := ih _ _ rec' bno hsync' hfull'
            rw [hc] at ic ibound
            exact ⟨ic, isync, ibound⟩

/-- `markLast` does not change the number of records. -/
theorem markLast_length (out : List kgetbmap) :
    (markLast out).length = out.length := by
  induction out with
  | nil => rfl
  | cons a l ih => cases l <;> simp_all [markLast]

/-- Emitting a record into a header with at least two slots of headroom
keeps sync and the capacity bound. -/
theorem xfs_getbmap_report_hole_inv (mp : xfs_mount) (bmv : getbmapx)
    (O : List kgetbmap) (bmv_end bno e : Int)
    (hsyncO : bmv.bmv_entries = (O.length : Int))
    (hroom : bmv.bmv_entries + 1 ≤ bmv.bmv_count - 1) :
    (xfs_getbmap_report_hole mp bmv O bmv_end bno e).1.bmv_count
      = bmv.bmv_count ∧
    (xfs_getbmap_report_hole mp bmv O bmv_end bno e).1.bmv_entries
      = ((xfs_getbmap_report_hole mp bmv O bmv_end bno e).2.length : Int) ∧
    (xfs_getbmap_report_hole mp bmv O bmv_end bno e).1.bmv_entries
      ≤ bmv.bmv_count - 1 := by
  obtain ⟨hc, hsh⟩ := xfs_getbmap_report_hole_shape mp bmv O bmv_end bno e
  refine ⟨hc, ?_, ?_⟩ <;>
    rcases hsh with ⟨h1, h2⟩ | ⟨h1, h2⟩ <;> simp [h1, h2, hsyncO] <;> omega

/-- The scan-exhausted exit keeps sync and the capacity bound. -/
theorem xfs_getbmap_scan_finish_inv (mp : xfs_mount) (ip : xfs_inode)
    (wf : WhichFork) (bmv : getbmapx) (out : List kgetbmap)
    (bmv_end bno : Int)
    (hsync : bmv.bmv_entries = (out.length : Int))
    (hbound : bmv.bmv_entries ≤ bmv.bmv_count - 1) :
    (xfs_getbmap_scan_finish mp ip wf bmv out bmv_end bno).2.1.bmv_count
      = bmv.bmv_count ∧
    (xfs_getbmap_scan_finish mp ip wf bmv out bmv_end bno).2.1.bmv_entries
      = ((xfs_getbmap_scan_finish mp ip wf bmv out bmv_end
          bno).2.2.length : Int) ∧
    (xfs_getbmap_scan_finish mp ip wf bmv out bmv_end bno).2.1.bmv_entries
      ≤ bmv.bmv_count - 1 := by
  simp only [xfs_getbmap_scan_finish]
  split_ifs with hcond hpos hpos2
  · have hfull : xfs_getbmap_full bmv = false := by
      simpa using hcond.2.2
    exact xfs_getbmap_report_hole_inv mp bmv _ bmv_end bno
      (XFS_B_TO_FSB mp ip.isize) (by simp [markLast_length, hsync])
      (xfs_getbmap_full_false bmv hfull).1
  · have hfull : xfs_getbmap_full bmv = false := by
      simpa using hcond.2.2
    exact xfs_getbmap_report_hole_inv mp bmv _ bmv_end bno
      (XFS_B_TO_FSB mp ip.isize) hsync (xfs_getbmap_full_false bmv hfull).1
  · exact ⟨rfl, by simp [markLast_length, hsync], hbound⟩
  · exact ⟨rfl, by simpa using hsync, hbound⟩

/-- The main emission loop keeps sync and the capacity bound. -/
theorem getbmapOuter_inv (mp : xfs_mount) (ip : xfs_inode)
    (o : GetbmapOracle) (wf : WhichFork) (first_bno len bmv_end : Int)
    (fuel : Nat) :
    ∀ (rest : List xfs_bmbt_irec) (bmv : getbmapx) (out : List kgetbmap)
      (bno : Int) (got : xfs_bmbt_irec),
      bmv.bmv_entries = (out.length : Int) →
      bmv.bmv_entries ≤ bmv.bmv_count - 1 →
      (getbmapOuter mp ip o wf first_bno len bmv_end fuel bmv out bno got
        rest).2.1.bmv_count = bmv.bmv_count ∧
      (getbmapOuter mp ip o wf first_bno len bmv_end fuel bmv out bno got
        rest).2.1.bmv_entries =
        ((getbmapOuter mp ip o wf first_bno len bmv_end fuel bmv out bno got
          rest).2.2.length : Int) ∧
      (getbmapOuter mp ip o wf first_bno len bmv_end fuel bmv out bno got
        rest).2.1.bmv_entries ≤ bmv.bmv_count - 1 := by
  intro rest
  induction rest with
  | nil =>
      intro bmv out bno got hsync hbound
      rw [getbmapOuter]
      split_ifs with hfull
      · exact ⟨rfl, hsync, hbound⟩
      · simp only
        have hfull' : xfs_getbmap_full bmv = false := by simpa using hfull
        by_cases hhole : bno < (xfs_trim_extent got first_bno len).br_startoff
        · simp only [if_pos hhole]
          obtain ⟨hc1, hsyncH, hboundH⟩ := xfs_getbmap_report_hole_inv mp bmv
            out bmv_end bno (xfs_trim_extent got first_bno len).br_startoff
            hsync (xfs_getbmap_full_false bmv hfull').1
          by_cases hfh : xfs_getbmap_full
              (xfs_getbmap_report_hole mp bmv out bmv_end bno
                (xfs_trim_extent got first_bno len).br_startoff).1
          · simp only [hfh, if_true]
            exact ⟨hc1, hsyncH, hboundH⟩
          · simp only [hfh, Bool.false_eq_true, if_false]
            obtain ⟨ic, isync, ibound⟩ := getbmapInner_inv mp ip o bmv_end
              fuel _ _ (xfs_trim_extent got first_bno len)
              (extEnd (xfs_trim_extent got first_bno len)) hsyncH
              (by simpa using hfh)
            rw [hc1] at ic ibound
            by_cases hir : (getbmapInner mp ip o bmv_end fuel
                (xfs_getbmap_report_hole mp bmv out bmv_end bno
                  (xfs_trim_extent got first_bno len).br_startoff).1
                (xfs_getbmap_report_hole mp bmv out bmv_end bno
                  (xfs_trim_extent got first_bno len).br_startoff).2
                (xfs_trim_extent got first_bno len)
                (extEnd (xfs_trim_extent got first_bno len))).2.2.2
            · simp only [hir, if_true]
              exact ⟨ic, isync, ibound⟩
            · simp only [hir, Bool.false_eq_true, if_false]
              obtain ⟨sc, ssync, sbound⟩ := xfs_getbmap_scan_finish_inv mp ip
                wf _ _ bmv_end (extEnd (xfs_trim_extent got first_bno len))
                isync (by rw [ic]; exact ibound)
              rw [ic] at sc sbound
              exact ⟨sc, ssync, sbound⟩
        · simp only [if_neg hhole]
          obtain ⟨ic, isync, ibound⟩ := getbmapInner_inv mp ip o bmv_end
            fuel bmv out (xfs_trim_extent got first_bno len)
            (extEnd (xfs_trim_extent got first_bno len)) hsync hfull'
          by_cases hir : (getbmapInner mp ip o bmv_end fuel bmv out
              (xfs_trim_extent got first_bno len)
              (extEnd (xfs_trim_extent got first_bno len))).2.2.2
          · simp only [hir, if_true]
            exact ⟨ic, isync, ibound⟩
          · simp only [hir, Bool.false_eq_true, if_false]
            obtain ⟨sc, ssync, sbound⟩ := xfs_getbmap_scan_finish_inv mp ip
              wf _ _ bmv_end (extEnd (xfs_trim_extent got first_bno len))
              isync (by rw [ic]; exact ibound)
            rw [ic] at sc sbound
            exact ⟨sc, ssync, sbound⟩
  | cons g rs ih =>
      intro bmv out bno got hsync hbound
      rw [getbmapOuter]
      split_ifs with hfull
      · exact ⟨rfl, hsync, hbound⟩
      · simp only
        have hfull' : xfs_getbmap_full bmv = false := by simpa using hfull
        by_cases hhole : bno < (xfs_trim_extent got first_bno len).br_startoff
        · simp only [if_pos hhole]
          obtain ⟨hc1, hsyncH, hboundH⟩ := xfs_getbmap_report_hole_inv mp bmv
            out bmv_end bno (xfs_trim_extent got first_bno len).br_startoff
            hsync (xfs_getbmap_full_false bmv hfull').1
          by_cases hfh : xfs_getbmap_full
              (xfs_getbmap_report_hole mp bmv out bmv_end bno
                (xfs_trim_extent got first_bno len).br_startoff).1
          · simp only [hfh, if_true]
            exact ⟨hc1, hsyncH, hboundH⟩
          · simp only [hfh, Bool.false_eq_true, if_false]
            obtain ⟨ic, isync, ibound⟩ := getbmapInner_inv mp ip o bmv_end
              fuel _ _ (xfs_trim_extent got first_bno len)
              (extEnd (xfs_trim_extent got first_bno len)) hsyncH
              (by simpa using hfh)
            rw [hc1] at ic ibound
            by_cases hir : (getbmapInner mp ip o bmv_end fuel
                (xfs_getbmap_report_hole mp bmv out bmv_end bno
                  (xfs_trim_extent got first_bno len).br_startoff).1
                (xfs_getbmap_report_hole mp bmv out bmv_end bno
                  (xfs_trim_extent got first_bno len).br_startoff).2
                (xfs_trim_extent got first_bno len)
                (extEnd (xfs_trim_extent got first_bno len))).2.2.2
            · simp only [hir, if_true]
              exact ⟨ic, isync, ibound⟩
            · simp only [hir, Bool.false_eq_true, if_false]
              split_ifs with hpast
              · exact ⟨ic, isync, ibound⟩
              · obtain ⟨rc, rsync, rbound⟩ := ih _ _
                  (extEnd (xfs_trim_extent got first_bno len)) g isync
                  (by rw [ic]; exact ibound)
                rw [ic] at rc rbound
                exact ⟨rc, rsync, rbound⟩
        · simp only [if_neg hhole]
          obtain ⟨ic, isync, ibound⟩ := getbmapInner_inv mp ip o bmv_end
            fuel bmv out (xfs_trim_extent got first_bno len)
            (extEnd (xfs_trim_extent got first_bno len)) hsync hfull'
          by_cases hir : (getbmapInner mp ip o bmv_end fuel bmv out
              (xfs_trim_extent got first_bno len)
              (extEnd (xfs_trim_extent got first_bno len))).2.2.2
          · simp only [hir, if_true]
            exact ⟨ic, isync, ibound⟩
          · simp only [hir, Bool.false_eq_true, if_false]
            split_ifs with hpast
            · exact ⟨ic, isync, ibound⟩
            · obtain ⟨rc, rsync, rbound⟩ := ih _ _
                (extEnd (xfs_trim_extent got first_bno len)) g isync
                (by rw [ic]; exact ibound)
              rw [ic] at rc rbound
              exact ⟨rc, rsync, rbound⟩


/-- The lookup-and-emit phase never exceeds `bmv_count - 1` records when
it starts with a zeroed entry count and at least two slots of capacity. -/
theorem getbmapLookupScan_capacity (mp : xfs_mount) (ip : xfs_inode)
    (o : GetbmapOracle) (fuel : Nat) (wf : WhichFork) (ifp : xfs_ifork)
    (bmv : getbmapx)
    (hent : bmv.bmv_entries = 0) (hc : 2 ≤ bmv.bmv_count) :
    ((getbmapLookupScan mp ip o fuel wf ifp bmv).2.2.length : Int)
      ≤ bmv.bmv_count - 1 ∧
    (getbmapLookupScan mp ip o fuel wf ifp bmv).2.1.bmv_entries
      ≤ bmv.bmv_count - 1 := by
  unfold getbmapLookupScan
  dsimp only
  by_cases cir : o.iread ≠ 0
  · rw [if_pos cir]
    refine ⟨?_, ?_⟩ <;> dsimp only
    · simp; omega
    · omega
  rw [if_neg cir]
  cases hlk : xfs_iext_lookup_extent ifp.exts
      (XFS_BB_TO_FSBT mp bmv.bmv_offset) with
  | none =>
      split_ifs with hdel
      · obtain ⟨hhc, hhs, hhb⟩ := xfs_getbmap_report_hole_inv mp bmv []
          (bmv.bmv_offset + bmv.bmv_length)
          (XFS_BB_TO_FSBT mp bmv.bmv_offset)
          (XFS_B_TO_FSB mp ip.isize) (by simp [hent]) (by omega)
        refine ⟨?_, hhb⟩
        dsimp only
        omega
      · exact ⟨by simp; omega, by dsimp only; omega⟩
  | some p =>
      obtain ⟨got, rest⟩ := p
      obtain ⟨oc, osync, obound⟩ := getbmapOuter_inv mp ip o wf
        (XFS_BB_TO_FSBT mp bmv.bmv_offset) (XFS_BB_TO_FSB mp bmv.bmv_length)
        (bmv.bmv_offset + bmv.bmv_length) fuel rest bmv []
        (XFS_BB_TO_FSBT mp bmv.bmv_offset) got (by simp [hent]) (by omega)
      refine ⟨?_, obound⟩
      dsimp only
      omega

/-- The shared scan never exceeds `bmv_count - 1` records when it starts
with a zeroed entry count and at least two slots of capacity. -/
theorem xfs_getbmap_scan_capacity (mp : xfs_mount) (ip : xfs_inode)
    (o : GetbmapOracle) (fuel : Nat) (wf : WhichFork) (max_len : Int)
    (ifp : xfs_ifork) (bmv : getbmapx)
    (hent : bmv.bmv_entries = 0) (hc : 2 ≤ bmv.bmv_count) :
    ((xfs_getbmap_scan mp ip o fuel wf max_len ifp bmv).2.2.length : Int)
      ≤ bmv.bmv_count - 1 ∧
    (xfs_getbmap_scan mp ip o fuel wf max_len ifp bmv).2.1.bmv_entries
      ≤ bmv.bmv_count - 1 := by
  unfold xfs_getbmap_scan
  cases hfmt : ifp.if_format
  case localfmt =>
      dsimp only
      exact ⟨by simp; omega, by omega⟩
  all_goals (
    dsimp only
    by_cases hml : bmv.bmv_length = -1
    · rw [if_pos hml]
      exact getbmapLookupScan_capacity mp ip o fuel wf ifp _ hent hc
    · rw [if_neg hml]
      exact getbmapLookupScan_capacity mp ip o fuel wf ifp _ hent hc)

/-- C9 (counterexample): claimed for *every* return, but the whole-file
hole emitted for a delalloc-visibility query whose lookup finds nothing
bypasses `xfs_getbmap_full`: with `bmv_count = 1` the function returns
success with `bmv_entries = 1 > bmv_count - 1 = 0`, and one record
written into a buffer the claim says never receives any. -/
theorem xfs_getbmap_capacity_exceeded :
    (xfs_getbmap { blocklog := 9, agblklog := 20, agblocks := 1048576 }
        { isize := 512, i_df := { if_format := .extents, exts := [] } } {} 1
        { bmv_offset := 0, bmv_length := 5, bmv_count := 1,
          bmv_iflags := BMV_IF_DELALLOC }).1 = 0 ∧
    (xfs_getbmap { blocklog := 9, agblklog := 20, agblocks := 1048576 }
        { isize := 512, i_df := { if_format := .extents, exts := [] } } {} 1
        { bmv_offset := 0, bmv_length := 5, bmv_count := 1,
          bmv_iflags := BMV_IF_DELALLOC }).2.1.bmv_entries = 1 ∧
    ((xfs_getbmap { blocklog := 9, agblklog := 20, agblocks := 1048576 }
        { isize := 512, i_df := { if_format := .extents, exts := [] } } {} 1
        { bmv_offset := 0, bmv_length := 5, bmv_count := 1,
          bmv_iflags := BMV_IF_DELALLOC }).2.2).length = 1 ∧
    ¬((1 : Int) ≤ (1 : Int) - 1) := by
  refine ⟨by decide, by decide, by decide, by decide⟩

/-- C9 (amended): for every query whose capacity field allows at least
two slots (`bmv_count ≥ 2`, which the ioctl entry point guarantees),
`xfs_getbmap` writes at most `bmv_count - 1` records on every return,
and `bmv_entries` never exceeds `bmv_count - 1` either (given it starts
within bounds — the flag-validation rejects return it untouched). -/
theorem xfs_getbmap_capacity (mp : xfs_mount) (ip : xfs_inode)
    (o : GetbmapOracle) (fuel : Nat) (bmv : getbmapx)
    (hc : 2 ≤ bmv.bmv_count) :
    ((xfs_getbmap mp ip o fuel bmv).2.2.length : Int) ≤ bmv.bmv_count - 1 ∧
    (bmv.bmv_entries ≤ bmv.bmv_count - 1 →
      (xfs_getbmap mp ip o fuel bmv).2.1.bmv_entries
        ≤ bmv.bmv_count - 1) := by
  unfold xfs_getbmap
  by_cases c1 : bmv.bmv_iflags &&& BMV_IF_VALID ≠ bmv.bmv_iflags
  · rw [if_pos c1]; exact ⟨by simp; omega, fun h => h⟩
  rw [if_neg c1]
  by_cases c2 : ¬mp.debug ∧ bmv.bmv_iflags &&& BMV_IF_COWFORK ≠ 0
  · rw [if_pos c2]; exact ⟨by simp; omega, fun h => h⟩
  rw [if_neg c2]
  by_cases c3 : bmv.bmv_iflags &&& BMV_IF_ATTRFORK ≠ 0 ∧
      bmv.bmv_iflags &&& BMV_IF_COWFORK ≠ 0
  · rw [if_pos c3]; exact ⟨by simp; omega, fun h => h⟩
  rw [if_neg c3]
  by_cases c4 : bmv.bmv_length < -1
  · rw [if_pos c4]; exact ⟨by simp; omega, fun h => h⟩
  rw [if_neg c4]
  by_cases c5 : ({ bmv with bmv_entries := 0 } : getbmapx).bmv_length = 0
  · rw [if_pos c5]; exact ⟨by simp; omega, fun _ => by simp; omega⟩
  rw [if_neg c5]
  have hscan : ∀ (wf : WhichFork) (max_len : Int) (ifp : xfs_ifork),
      ((xfs_getbmap_scan mp ip o fuel wf max_len ifp
          { bmv with bmv_entries := 0 }).2.2.length : Int)
        ≤ bmv.bmv_count - 1 ∧
      (bmv.bmv_entries ≤ bmv.bmv_count - 1 →
        (xfs_getbmap_scan mp ip o fuel wf max_len ifp
          { bmv with bmv_entries := 0 }).2.1.bmv_entries
          ≤ bmv.bmv_count - 1) := by
    intro wf max_len ifp
    obtain ⟨l1, l2⟩ := xfs_getbmap_scan_capacity mp ip o fuel wf max_len ifp
      { bmv with bmv_entries := 0 } rfl hc
    exact ⟨l1, fun _ => l2⟩
  by_cases ca : bmv.bmv_iflags &&& BMV_IF_ATTRFORK ≠ 0
  · rw [if_pos ca]
    dsimp only
    rw [if_neg (show ¬(WhichFork.attr = WhichFork.data ∧
        bmv.bmv_iflags &&& BMV_IF_DELALLOC = 0 ∧
        (ip.i_delayed_blks ≠ 0 ∨ ip.isize > ip.i_disk_size)) by simp)]
    rw [if_neg (show ¬((0 : Int) ≠ 0) by simp)]
    by_cases chaf : ¬ip.has_attr_fork
    · rw [if_pos chaf]
      exact ⟨by simp; omega, fun _ => by dsimp only; omega⟩
    · rw [if_neg chaf]
      exact hscan .attr (2 ^ 32) ip.i_af
  rw [if_neg ca]
  by_cases cb : bmv.bmv_iflags &&& BMV_IF_COWFORK ≠ 0
  · rw [if_pos cb]
    dsimp only
    rw [if_neg (show ¬(WhichFork.cow = WhichFork.data ∧
        bmv.bmv_iflags &&& BMV_IF_DELALLOC = 0 ∧
        (ip.i_delayed_blks ≠ 0 ∨ ip.isize > ip.i_disk_size)) by simp)]
    rw [if_neg (show ¬((0 : Int) ≠ 0) by simp)]
    cases hcw : ip.i_cowfp with
    | none => exact ⟨by simp; omega, fun _ => by dsimp only; omega⟩
    | some cfp =>
        exact hscan .cow
          (if ip.cowextsz_hint ≠ 0 then mp.s_maxbytes else ip.isize) cfp
  rw [if_neg cb]
  dsimp only
  by_cases cfl : WhichFork.data = WhichFork.data ∧
      bmv.bmv_iflags &&& BMV_IF_DELALLOC = 0 ∧
      (ip.i_delayed_blks ≠ 0 ∨ ip.isize > ip.i_disk_size)
  · rw [if_pos cfl]
    by_cases cf2 : o.flush ≠ 0
    · rw [if_pos cf2]
      exact ⟨by simp; omega, fun _ => by dsimp only; omega⟩
    · rw [if_neg cf2]
      exact hscan .data
        (if ip.extsz_hint ≠ 0 ∨ ip.diflags_prealloc ∨ ip.diflags_append
         then mp.s_maxbytes else ip.isize) ip.i_df
  · rw [if_neg cfl]
    rw [if_neg (show ¬((0 : Int) ≠ 0) by simp)]
    exact hscan .data
      (if ip.extsz_hint ≠ 0 ∨ ip.diflags_prealloc ∨ ip.diflags_append
       then mp.s_maxbytes else ip.isize) ip.i_df

/-- C9 (witness): the amended bound at a concrete query with three
slots. -/
theorem xfs_getbmap_capacity_witness :
    ((xfs_getbmap { blocklog := 9 }
        { isize := 512, i_df := { if_format := .extents, exts := [] } } {} 1
        { bmv_offset := 0, bmv_length := 5, bmv_count := 3,
          bmv_iflags := BMV_IF_DELALLOC }).2.2.length : Int)
      ≤ ({ bmv_offset := 0, bmv_length := 5, bmv_count := 3,
           bmv_iflags := BMV_IF_DELALLOC } : getbmapx).bmv_count - 1 ∧
    (({ bmv_offset := 0, bmv_length := 5, bmv_count := 3,
        bmv_iflags := BMV_IF_DELALLOC } : getbmapx).bmv_entries
        ≤ ({ bmv_offset := 0, bmv_length := 5, bmv_count := 3,
             bmv_iflags := BMV_IF_DELALLOC } : getbmapx).bmv_count - 1 →
      (xfs_getbmap { blocklog := 9 }
        { isize := 512, i_df := { if_format := .extents, exts := [] } } {} 1
        { bmv_offset := 0, bmv_length := 5, bmv_count := 3,
          bmv_iflags := BMV_IF_DELALLOC }).2.1.bmv_entries
        ≤ ({ bmv_offset := 0, bmv_length := 5, bmv_count := 3,
             bmv_iflags := BMV_IF_DELALLOC } : getbmapx).bmv_count - 1) :=
  xfs_getbmap_capacity { blocklog := 9 }
    { isize := 512, i_df := { if_format := .extents, exts := [] } } {} 1
    { bmv_offset := 0, bmv_length := 5, bmv_count := 3,
      bmv_iflags := BMV_IF_DELALLOC } (by decide)

/-! ## C10: behaviour when the lookup finds no extent -/

/-- C10 (counterexample): with both the delayed-visibility flag and the
hole-suppression flag set (`BMV_IF_DELALLOC | BMV_IF_NO_HOLES`, a valid
combination) and an empty fork, `xfs_getbmap` succeeds with **zero**
records: the claim's "emits exactly one hole record whenever the
delayed-visibility flag is set" fails, because the whole-file hole goes
through `xfs_getbmap_report_hole`, which drops it under
`BMV_IF_NO_HOLES`. -/
theorem xfs_getbmap_lookup_none_noholes :
    xfs_getbmap { blocklog := 9, agblklog := 20, agblocks := 1048576 }
      { isize := 512, i_df := { if_format := .extents, exts := [] } }
      {} 1
      { bmv_offset := 0, bmv_length := 5, bmv_count := 10,
        bmv_iflags := BMV_IF_DELALLOC ||| BMV_IF_NO_HOLES } =
      (0, { bmv_offset := 0, bmv_length := 5, bmv_count := 10,
            bmv_entries := 0,
            bmv_iflags := BMV_IF_DELALLOC ||| BMV_IF_NO_HOLES }, []) ∧
    (BMV_IF_DELALLOC ||| BMV_IF_NO_HOLES) &&& BMV_IF_DELALLOC ≠ 0 := by
  refine ⟨by decide, by decide⟩

/-- C10 (amended): on a data-fork query, when the extent lookup finds no
record at or after the starting offset, `xfs_getbmap` returns success
with zero records — except that with the delayed-visibility flag set
*and hole reporting not suppressed* it emits exactly one hole record
(sentinel `-1`) spanning from the (block-rounded) start offset to the
end-of-file block. -/
theorem xfs_getbmap_lookup_none (mp : xfs_mount) (ip : xfs_inode)
    (o : GetbmapOracle) (fuel : Nat) (bmv : getbmapx)
    (hvalid : bmv.bmv_iflags &&& BMV_IF_VALID = bmv.bmv_iflags)
    (hattr : bmv.bmv_iflags &&& BMV_IF_ATTRFORK = 0)
    (hcow : bmv.bmv_iflags &&& BMV_IF_COWFORK = 0)
    (hlen : 0 < bmv.bmv_length)
    (hflush : o.flush = 0) (hiread : o.iread = 0)
    (hfmt : ip.i_df.if_format = .extents)
    (hlook : xfs_iext_lookup_extent ip.i_df.exts
      (XFS_BB_TO_FSBT mp bmv.bmv_offset) = none) :
    (xfs_getbmap mp ip o fuel bmv).1 = 0 ∧
    (bmv.bmv_iflags &&& BMV_IF_DELALLOC ≠ 0 →
        bmv.bmv_iflags &&& BMV_IF_NO_HOLES = 0 →
      (xfs_getbmap mp ip o fuel bmv).2.2 =
        [{ bmv_block := -1,
           bmv_offset := XFS_FSB_TO_BB mp (XFS_BB_TO_FSBT mp bmv.bmv_offset),
           bmv_length := XFS_FSB_TO_BB mp (XFS_B_TO_FSB mp ip.isize -
             XFS_BB_TO_FSBT mp bmv.bmv_offset) }] ∧
      (xfs_getbmap mp ip o fuel bmv).2.1.bmv_entries = 1) ∧
    ((bmv.bmv_iflags &&& BMV_IF_DELALLOC = 0 ∨
        bmv.bmv_iflags &&& BMV_IF_NO_HOLES ≠ 0) →
      (xfs_getbmap mp ip o fuel bmv).2.2 = [] ∧
      (xfs_getbmap mp ip o fuel bmv).2.1.bmv_entries = 0) := by
  have h1 : ¬(bmv.bmv_iflags &&& BMV_IF_VALID ≠ bmv.bmv_iflags) := by
    simp [hvalid]
  have h2 : ¬(¬mp.debug ∧ bmv.bmv_iflags &&& BMV_IF_COWFORK ≠ 0) := by
    simp [hcow]
  have h3 : ¬(bmv.bmv_iflags &&& BMV_IF_ATTRFORK ≠ 0 ∧
      bmv.bmv_iflags &&& BMV_IF_COWFORK ≠ 0) := by simp [hcow]
  have h4 : ¬(bmv.bmv_length < -1) := by omega
  have hgb : xfs_getbmap mp ip o fuel bmv =
      (if bmv.bmv_iflags &&& BMV_IF_DELALLOC ≠ 0 then
        ((0 : Int),
         (xfs_getbmap_report_hole mp { bmv with bmv_entries := 0 } []
            (bmv.bmv_offset + bmv.bmv_length)
            (XFS_BB_TO_FSBT mp bmv.bmv_offset)
            (XFS_B_TO_FSB mp ip.isize)).1,
         (xfs_getbmap_report_hole mp { bmv with bmv_entries := 0 } []
            (bmv.bmv_offset + bmv.bmv_length)
            (XFS_BB_TO_FSBT mp bmv.bmv_offset)
            (XFS_B_TO_FSB mp ip.isize)).2)
      else (0, { bmv with bmv_entries := 0 }, [])) := by
    unfold xfs_getbmap
    rw [if_neg h1, if_neg h2, if_neg h3, if_neg h4]
    have hwf : (if bmv.bmv_iflags &&& BMV_IF_ATTRFORK ≠ 0 then WhichFork.attr
        else if bmv.bmv_iflags &&& BMV_IF_COWFORK ≠ 0 then WhichFork.cow
        else WhichFork.data) = WhichFork.data := by
      rw [if_neg (by simp [hattr]), if_neg (by simp [hcow])]
    rw [if_neg (show ¬(({ bmv with bmv_entries := 0 } : getbmapx).bmv_length
        = 0) by simp; omega)]
    rw [hwf]
    simp only [hflush, ite_self]
    rw [if_neg (show ¬((0 : Int) ≠ 0) by simp)]
    unfold xfs_getbmap_scan
    rw [hfmt]
    simp only
    rw [if_neg (show ¬(({ bmv with bmv_entries := 0 } : getbmapx).bmv_length
        = -1) by simp; omega)]
    unfold getbmapLookupScan
    rw [hiread]
    rw [if_neg (show ¬((0 : Int) ≠ 0) by simp)]
    rw [hlook]
  constructor
  · rw [hgb]; split_ifs <;> rfl
  constructor
  · intro hdel hnh
    rw [hgb, if_pos hdel]
    unfold xfs_getbmap_report_hole
    rw [if_neg (by simp [hnh])]
    exact ⟨rfl, rfl⟩
  · intro hcase
    rcases hcase with hdel | hnh
    · rw [hgb, if_neg (by simp [hdel])]
      exact ⟨rfl, rfl⟩
    · rw [hgb]
      split_ifs with hdel
      · unfold xfs_getbmap_report_hole
        rw [if_pos (by simp [hnh])]
        exact ⟨rfl, rfl⟩
      · exact ⟨rfl, rfl⟩

/-- C10 (witness): both cases at concrete inputs — delayed-visibility
alone produces the single whole-file hole record; no flag produces zero
records. -/
theorem xfs_getbmap_lookup_none_witness :
    ((xfs_getbmap { blocklog := 9 }
        { isize := 512, i_df := { if_format := .extents, exts := [] } } {} 1
        { bmv_offset := 0, bmv_length := 5, bmv_count := 10,
          bmv_iflags := BMV_IF_DELALLOC }).2.2 =
      [{ bmv_block := -1, bmv_offset := 0, bmv_length := 1 }]) ∧
    ((xfs_getbmap { blocklog := 9 }
        { isize := 512, i_df := { if_format := .extents, exts := [] } } {} 1
        { bmv_offset := 0, bmv_length := 5, bmv_count := 10 }).2.2 = []) := by
  constructor
  · have h := ((xfs_getbmap_lookup_none { blocklog := 9 }
      { isize := 512, i_df := { if_format := .extents, exts := [] } } {} 1
      { bmv_offset := 0, bmv_length := 5, bmv_count := 10,
        bmv_iflags := BMV_IF_DELALLOC }
      (by decide) (by decide) (by decide) (by decide) rfl rfl rfl
      (by decide)).2.1 (by decide) (by decide)).1
    rw [h]
    rfl
  · exact ((xfs_getbmap_lookup_none { blocklog := 9 }
      { isize := 512, i_df := { if_format := .extents, exts := [] } } {} 1
      { bmv_offset := 0, bmv_length := 5, bmv_count := 10 }
      (by decide) (by decide) (by decide) (by decide) rfl rfl rfl
      (by decide)).2.2 (Or.inl (by decide))).1

/-! ## C7: the step order of collapse -/

/-- Every trace of the collapse shift loop is one the claim's loop
description allows. -/
theorem collapseLoop_traceOK (s c : Int) (steps : List CStep) :
    ShiftTraceOK (collapseLoop s c steps).2 := by
  induction steps with
  | nil => exact .fuelOut
  | cons st rest ih =>
      unfold collapseLoop
      cases hsh : st.shift with
      | error e => exact .errShift s
      | ok done =>
          cases done
          · dsimp only
            split_ifs with hd
            · exact .errDefer s
            · exact .more s _ ih
          · exact .doneShift s

/-- Every shift call in the loop trace shifts by the same, fixed amount. -/
theorem collapseLoop_shift_arg (s c : Int) (steps : List CStep) :
    ∀ t, CEvent.shiftLeft t ∈ (collapseLoop s c steps).2 → t = s := by
  induction steps with
  | nil => intro t ht; simp [collapseLoop] at ht
  | cons st rest ih =>
      intro t ht
      unfold collapseLoop at ht
      cases hsh : st.shift with
      | error e =>
          rw [hsh] at ht
          simp at ht
          exact ht
      | ok done =>
          rw [hsh] at ht
          cases done
          · dsimp only at ht
            split_ifs at ht with hd
            · simp at ht
              exact ht
            · simp only [List.mem_cons] at ht
              rcases ht with ht | ht | ht
              · exact (CEvent.shiftLeft.injEq _ _).mp ht.symm ▸ rfl
              · cases ht
              · exact ih t ht
          · simp at ht
            exact ht

/-- C7: `xfs_collapse_file_space` performs its steps in the claimed
order — first the range deallocation of exactly `[offset, offset+len)`
via `xfs_free_file_space`, then the shared shift preparation, then the
transaction and the shift loop, which alternates shift calls (always by
`len` bytes, block-converted) with finish-deferred-and-roll steps until
a shift reports completion (then the commit) or a step fails (then the
cancel); an error in any step aborts without performing the later
steps. -/
theorem xfs_collapse_file_space_order (mp : xfs_mount) (ip : xfs_inode)
    (offset len : Int) (o : CollapseOracle) :
    ((xfs_collapse_file_space mp ip offset len o).2.2.head? =
      some (.freeSpace offset len)) ∧
    ((xfs_free_file_space mp ip offset len o.freeO).1 ≠ 0 →
      xfs_collapse_file_space mp ip offset len o =
        ((xfs_free_file_space mp ip offset len o.freeO).1,
         (xfs_free_file_space mp ip offset len o.freeO).2.1,
         [.freeSpace offset len])) ∧
    ((xfs_free_file_space mp ip offset len o.freeO).1 = 0 →
      (xfs_prepare_shift mp
        (xfs_free_file_space mp ip offset len o.freeO).2.1 offset
        o.prepO).1 ≠ 0 →
      xfs_collapse_file_space mp ip offset len o =
        ((xfs_prepare_shift mp
            (xfs_free_file_space mp ip offset len o.freeO).2.1 offset
            o.prepO).1,
         (xfs_prepare_shift mp
            (xfs_free_file_space mp ip offset len o.freeO).2.1 offset
            o.prepO).2,
         [.freeSpace offset len, .prepShift offset])) ∧
    ((xfs_free_file_space mp ip offset len o.freeO).1 = 0 →
      (xfs_prepare_shift mp
        (xfs_free_file_space mp ip offset len o.freeO).2.1 offset
        o.prepO).1 = 0 →
      o.trans_alloc ≠ 0 →
      xfs_collapse_file_space mp ip offset len o =
        (o.trans_alloc,
         (xfs_prepare_shift mp
            (xfs_free_file_space mp ip offset len o.freeO).2.1 offset
            o.prepO).2,
         [.freeSpace offset len, .prepShift offset])) ∧
    ((xfs_free_file_space mp ip offset len o.freeO).1 = 0 →
      (xfs_prepare_shift mp
        (xfs_free_file_space mp ip offset len o.freeO).2.1 offset
        o.prepO).1 = 0 →
      o.trans_alloc = 0 →
      xfs_collapse_file_space mp ip offset len o =
        ((collapseLoop (XFS_B_TO_FSB mp len) o.commit o.steps).1,
         (xfs_prepare_shift mp
            (xfs_free_file_space mp ip offset len o.freeO).2.1 offset
            o.prepO).2,
         [.freeSpace offset len, .prepShift offset, .transAlloc] ++
           (collapseLoop (XFS_B_TO_FSB mp len) o.commit o.steps).2)) ∧
    ShiftTraceOK (collapseLoop (XFS_B_TO_FSB mp len) o.commit o.steps).2 ∧
    (∀ t, CEvent.shiftLeft t ∈
        (collapseLoop (XFS_B_TO_FSB mp len) o.commit o.steps).2 →
      t = XFS_B_TO_FSB mp len) := by
  refine ⟨?_, ?_, ?_, ?_, ?_, collapseLoop_traceOK _ _ _,
    collapseLoop_shift_arg _ _ _⟩
  · unfold xfs_collapse_file_space
    dsimp only
    split_ifs <;> rfl
  · intro h1
    unfold xfs_collapse_file_space
    dsimp only
    rw [if_pos h1]
  · intro h1 h2
    unfold xfs_collapse_file_space
    dsimp only
    rw [if_neg (by simp [h1]), if_pos h2]
  · intro h1 h2 h3
    unfold xfs_collapse_file_space
    dsimp only
    rw [if_neg (by simp [h1]), if_neg (by simp [h2]), if_pos h3]
  · intro h1 h2 h3
    unfold xfs_collapse_file_space
    dsimp only
    rw [if_neg (by simp [h1]), if_neg (by simp [h2]), if_neg (by simp [h3])]

/-- C7 (witness): a collapse whose loop needs one roll before the shift
reports completion, at concrete inputs. -/
theorem xfs_collapse_file_space_order_witness :
    xfs_collapse_file_space { blocklog := 9 } { isize := 0 } 1024 512
      { steps := [{ shift := .ok false }, { shift := .ok true }] } =
      (0, { isize := 0 },
       [.freeSpace 1024 512, .prepShift 1024, .transAlloc,
        .shiftLeft 1, .deferRoll, .shiftLeft 1, .commitTx]) := by
  have h := (xfs_collapse_file_space_order { blocklog := 9 } { isize := 0 }
    1024 512
    { steps := [{ shift := .ok false }, { shift := .ok true }] }).2.2.2.2.1
    rfl rfl rfl
  rw [h]
  rfl

/-! ## C8: non-positive length deallocation is a successful no-op -/

/-- C8: `xfs_free_file_space` with a zero or negative length returns
success, leaves the inode unchanged, and performs no unmap, zeroing or
flush step (once the quota attach, an external collaborator, succeeds). -/
theorem xfs_free_file_space_nonpositive (mp : xfs_mount) (ip : xfs_inode)
    (offset len : Int) (o : FreeOracle)
    (hdq : o.dqattach = 0) (hlen : len ≤ 0) :
    xfs_free_file_space mp ip offset len o = (0, ip, []) := by
  unfold xfs_free_file_space
  rw [if_neg (by simp [hdq]), if_pos hlen]

/-- C8 (witness): length 0 at a concrete inode. -/
theorem xfs_free_file_space_nonpositive_witness :
    xfs_free_file_space {} { isize := 4096 } 100 0 {} =
      (0, { isize := 4096 }, []) :=
  xfs_free_file_space_nonpositive {} { isize := 4096 } 100 0 {} rfl
    (by decide)

end XfsBmapUtil
